import Mathlib

/-!
# ThreadPool

A shallow embedding of `include/threadpool.h` and `src/threadpool.cpp`
(classes `Any`, `Semaphore`, `Result`, `Task`, `Thread`, `ThreadPool`) and
theorems about it.

Modelling conventions.

* A C++ object is a Lean structure with the same field names; a member
  function is a Lean function from the object (and its arguments) to the
  updated object (and its return value).
* `int` and `std::atomic_int` fields are `Int`, `size_t` and
  `std::atomic_uint` fields are `Nat`.  The conversions the compiler inserts
  between them (`int` to `size_t`, `int` to `unsigned`) are the explicit
  functions `toSizeT` and `toUInt`: they are where a negative value changes
  meaning.  Increments and decrements of the counters are exact: a pool with
  `2^31` workers or `2^32` queued tasks is outside the model.
* Undefined behaviour (dereferencing a null `unique_ptr`, `front()` on an
  empty queue, overflow of a signed loop counter) is `none`.
* A call that blocks is `none` as well (`Semaphore.wait`, `Result.get`): the
  caller can only continue from a state in which the function returns `some`.
* Threads interleave at the points where the mutex `taskQueueMtx_` is taken
  and released; a call of `start`, which takes no lock, is one step.  The operating-system threads created by `Thread::start` are
  recorded in the field `osThreads`, which is not a member of the C++ class:
  each entry is the argument `threadId` of its `threadFunc` call, its local
  variable `lastTime` and the place in `threadFunc` where it stands.
-/

namespace TPool

/-! ## Integer conversions -/

/-- Conversion of an `int` to `size_t` (64 bit): reduction modulo `2^64`. -/
def toSizeT (x : Int) : Nat := (x % 18446744073709551616).toNat

/-- Conversion of an `int` to `unsigned int` (32 bit): reduction modulo `2^32`. -/
def toUInt (x : Int) : Nat := (x % 4294967296).toNat

/-- The largest value of an `int`. -/
def INT_MAX : Int := 2147483647

/-! ## Constants of `threadpool.cpp` -/

def TASK_MAX_THRESHHOLD : Int := 4
def THREAD_MAX_THRESHHOLD : Int := 10
/-- Idle time limit of a cached-mode worker, in seconds. -/
def THREAD_MAX_IDLE_TIME : Int := 10

/-! ## Any -/

/-- The types an `Any` can be asked about: `std::nullptr_t` and the types `U`
of the user of the library. -/
inductive CppType (U : Type) where
  | nullptr_t : CppType U
  | user (u : U) : CppType U
  deriving DecidableEq

/-- The values of a C++ type; `std::nullptr_t` has the single value `nullptr`. -/
def CppType.Val {U : Type} (El : U → Type) : CppType U → Type
  | .nullptr_t => Unit
  | .user u => El u

/-- Class `Any`.  `base_` is the `std::unique_ptr<Base>`: `none` is the null
pointer, `some ⟨T, data⟩` points to a `Derive<T>` object whose member `data_`
is `data`. -/
structure Any (U : Type) (El : U → Type) where
  base_ : Option (Σ T : CppType U, T.Val El)

/-- The constructor `Any() = default`: `base_` is null; also the state of an
`Any` that has been moved from. -/
def Any.empty {U : Type} {El : U → Type} : Any U El := ⟨none⟩

/-- The constructor `template <typename T> Any(T data)`:
`base_(new Derive<T>(data))`. -/
def Any.ctor {U : Type} {El : U → Type} (T : CppType U) (data : T.Val El) : Any U El :=
  ⟨some ⟨T, data⟩⟩

/-- The conversion of `nullptr` to `Any` in `return nullptr;` and
`any_(nullptr)`.  `Any` has no constructor taking a pointer; the only
constructor that accepts the argument `nullptr` is the template
`Any(T data)` with `T = std::nullptr_t`, so the result owns a
`Derive<std::nullptr_t>`. -/
def Any.ofNullptr {U : Type} {El : U → Type} : Any U El :=
  Any.ctor .nullptr_t ()

/-- The expression `dynamic_cast<Derive<T> *>(base_.get())`: the pointer to the
`Derive<T>` object when `base_` points to an object of exactly that class,
the null pointer otherwise. -/
def Any.dynamic_cast {U : Type} [DecidableEq U] {El : U → Type}
    (a : Any U El) (T : CppType U) : Option (T.Val El) :=
  match a.base_ with
  | none => none
  | some ⟨T', data⟩ => if h : T' = T then some (h ▸ data) else none

/-- The member `template <typename T> T cast_()`: `throw "type is
incompatible!"` is `Except.error`. -/
def Any.cast_ {U : Type} [DecidableEq U] {El : U → Type}
    (a : Any U El) (T : CppType U) : Except String (T.Val El) :=
  match a.dynamic_cast T with
  | none => .error "type is incompatible!"
  | some data => .ok data

/-! ## Semaphore -/

/-- Class `Semaphore`; the mutex and the condition variable are the blocking
discipline of `wait`. -/
structure Semaphore where
  resLimit_ : Int
  deriving DecidableEq

/-- The constructor `Semaphore() : resLimit_(0)`. -/
def Semaphore.ctor : Semaphore := ⟨0⟩

/-- The member `wait`: blocks (`none`) until `resLimit_ > 0`, then takes one
resource. -/
def Semaphore.wait (sem : Semaphore) : Option Semaphore :=
  if 0 < sem.resLimit_ then some ⟨sem.resLimit_ - 1⟩ else none

/-- The member `post`: adds one resource. -/
def Semaphore.post (sem : Semaphore) : Semaphore := ⟨sem.resLimit_ + 1⟩

/-! ## Result and Task -/

/-- Class `Result`.  `Task` is the type of the task objects
(`std::shared_ptr<Task>`, not null). -/
structure Result (Task : Type) (U : Type) (El : U → Type) where
  any_ : Any U El
  sem_ : Semaphore
  task_ : Task
  isValid_ : Bool

/-- The constructor `Result(std::shared_ptr<Task> task, bool isValid)`:
`isValid_(isValid), task_(task), any_(nullptr)`.  Its body
`task->setResult(this)` makes the task point back to this object; the model
keeps that link as the pair of the task and its `Result` (see `Task.exec`). -/
def Result.ctor {Task U : Type} {El : U → Type} (task : Task) (isValid : Bool) :
    Result Task U El :=
  { any_ := Any.ofNullptr, sem_ := Semaphore.ctor, task_ := task, isValid_ := isValid }

/-- The member `Result::setVal(Any any)`: stores the value, then posts the
semaphore. -/
def Result.setVal {Task U : Type} {El : U → Type} (r : Result Task U El) (any : Any U El) :
    Result Task U El :=
  { r with any_ := any, sem_ := r.sem_.post }

/-- The member `Result::get()`: the returned `Any` and the object afterwards;
`none` while the call is blocked in `sem_.wait()`.  `return std::move(any_)`
leaves `any_` with a null `base_`. -/
def Result.get {Task U : Type} {El : U → Type} (r : Result Task U El) :
    Option (Any U El × Result Task U El) :=
  if !r.isValid_ then
    some (Any.ofNullptr, r)
  else
    match r.sem_.wait with
    | none => none
    | some sem => some (r.any_, { r with sem_ := sem, any_ := Any.empty })

/-- The member `Task::exec()`: `if (result_ != nullptr) result_->setVal(run())`.
`result_` is the `Result` the task points to (`none` for the null pointer)
and `run` is the value returned by the virtual `run()`. -/
def Task.exec {Task U : Type} {El : U → Type} (run : Any U El)
    (result_ : Option (Result Task U El)) : Option (Result Task U El) :=
  match result_ with
  | none => none
  | some r => some (r.setVal run)

/-! ## Thread and the worker registry -/

/-- Enum `PoolMode`. -/
inductive PoolMode where
  | MODE_FIXED
  | MODE_CACHED
  deriving DecidableEq

/-- Class `Thread`.  `func_` is not a field: every `Thread` of the program is
constructed with `ThreadPool::threadFunc` bound to the pool. -/
structure Thread where
  threadId_ : Int
  deriving DecidableEq

/-- The member `Thread::getId`. -/
def Thread.getId (t : Thread) : Int := t.threadId_

/-- The container `std::unordered_map<int, std::unique_ptr<Thread>>`: the
entries, with pairwise different keys. -/
abbrev ThreadMap := List (Int × Thread)

/-- Lookup of a key, as `find` does. -/
def ThreadMap.find (m : ThreadMap) (k : Int) : Option Thread :=
  match m with
  | [] => none
  | (k', t) :: rest => if k' = k then some t else ThreadMap.find rest k

/-- The member `emplace(k, t)`: inserts the entry unless the key is present. -/
def ThreadMap.emplace (m : ThreadMap) (k : Int) (t : Thread) : ThreadMap :=
  match m.find k with
  | some _ => m
  | none => m ++ [(k, t)]

/-- The member `erase(k)`. -/
def ThreadMap.erase (m : ThreadMap) (k : Int) : ThreadMap :=
  m.filter (fun e => e.1 ≠ k)

/-- Return value of `std::condition_variable::wait_for` without predicate. -/
inductive CvStatus where
  | no_timeout
  | timeout
  deriving DecidableEq

/-- The place where a thread running `threadFunc` stands. -/
inductive Pc (Task : Type) where
  /-- Created by `Thread::start`, `threadFunc` not yet entered. -/
  | spawned
  /-- Outside the critical section, about to take `taskQueueMtx_` (line 102). -/
  | ready
  /-- Blocked in `notEmpty_.wait_for(lock, 1s)` (line 125). -/
  | timedWait
  /-- Blocked in `notEmpty_.wait(lock)` (line 147). -/
  | untimedWait
  /-- Past the critical section with a dequeued task (lines 164-169). -/
  | executing (task : Task)

/-- Whether the thread holds a dequeued task. -/
def Pc.isExecuting {Task : Type} : Pc Task → Bool
  | .executing _ => true
  | _ => false

/-- A thread created by `Thread::start`, running `threadFunc(threadId)`;
`lastTime` is the local variable of that name, a reading of the clock in
nanoseconds. -/
structure OsThread (Task : Type) where
  threadId : Int
  lastTime : Int
  pc : Pc Task

/-! ## ThreadPool -/

/-- Class `ThreadPool`, together with the static member `Thread::generateId_`
of the process and the threads created so far (`osThreads`). -/
structure ThreadPool (Task : Type) where
  threads_ : ThreadMap
  initThreadSize_ : Nat
  maxThreadSize_ : Nat
  curThreadSize_ : Int
  idleThreadSize_ : Int
  taskQueue_ : List Task
  taskCnt_ : Nat
  taskQueueMaxThreshHold_ : Int
  poolMode_ : PoolMode
  isRunning_ : Bool
  /-- The static `int Thread::generateId_`, shared by all pools of a process. -/
  generateId_ : Int
  /-- The threads created by `Thread::start` that have not returned. -/
  osThreads : List (OsThread Task)

namespace ThreadPool

variable {Task : Type}

/-- The constructor `ThreadPool::ThreadPool()`, in a process whose
`Thread::generateId_` is `generateId`. -/
def ctor (generateId : Int) : ThreadPool Task :=
  { threads_ := []
    initThreadSize_ := 0
    maxThreadSize_ := toSizeT THREAD_MAX_THRESHHOLD
    curThreadSize_ := 0
    idleThreadSize_ := 0
    taskQueue_ := []
    taskCnt_ := 0
    taskQueueMaxThreshHold_ := TASK_MAX_THRESHHOLD
    poolMode_ := .MODE_FIXED
    isRunning_ := false
    generateId_ := generateId
    osThreads := [] }

/-- The member `checkRunningState`. -/
def checkRunningState (s : ThreadPool Task) : Bool := s.isRunning_

/-- The member `setMode`. -/
def setMode (s : ThreadPool Task) (mode : PoolMode) : ThreadPool Task :=
  if s.checkRunningState then s else { s with poolMode_ := mode }

/-- The member `setTaskQueueMaxThreshHold`. -/
def setTaskQueueMaxThreshHold (s : ThreadPool Task) (threshHold : Int) : ThreadPool Task :=
  if s.checkRunningState then s else { s with taskQueueMaxThreshHold_ := threshHold }

/-- The member `setThreadSizeThreshhold`; the assignment converts the `int`
argument to the `size_t` member. -/
def setThreadSizeThreshhold (s : ThreadPool Task) (threshHold : Int) : ThreadPool Task :=
  if s.checkRunningState then s
  else if s.poolMode_ = .MODE_FIXED then { s with maxThreadSize_ := toSizeT threshHold }
  else s

/-- The statement `new Thread(...)` followed by `threads_.emplace(threadId, ptr)`:
the constructor takes `generateId_++` as the id. -/
def emplaceNewThread (s : ThreadPool Task) : ThreadPool Task :=
  { s with
    threads_ := s.threads_.emplace s.generateId_ ⟨s.generateId_⟩
    generateId_ := s.generateId_ + 1 }

/-- The statement `threads_[k]->start()`: `Thread::start` creates a detached
thread running `threadFunc(threadId_)`.  When the key is absent `operator[]`
inserts a null pointer and the call dereferences it: `none`. -/
def startThreadAt (s : ThreadPool Task) (k : Int) : Option (ThreadPool Task) :=
  match s.threads_.find k with
  | none => none
  | some t => some { s with osThreads := s.osThreads ++ [⟨t.threadId_, 0, .spawned⟩] }

/-- The growth test of `submitTask` (line 255), evaluated after the task has
been counted: `taskCnt_ > idleThreadSize_` compares `unsigned` with `int`,
`curThreadSize_ < maxThreadSize_` compares `int` with `size_t`. -/
def needsNewThread (s : ThreadPool Task) : Bool :=
  decide (s.poolMode_ = .MODE_CACHED) && decide (toUInt s.idleThreadSize_ < s.taskCnt_)
    && decide (toSizeT s.curThreadSize_ < s.maxThreadSize_)

/-- Lines 259-266 of `submitTask`: create, register and start one thread, then
count it.  The lookup `threads_[threadId]` follows the `emplace` of the same
key and always finds an entry (`startThreadAt_emplaceNewThread`). -/
def createThread (s : ThreadPool Task) : ThreadPool Task :=
  let threadId := s.generateId_
  let s1 := s.emplaceNewThread
  match s1.startThreadAt threadId with
  | none => s1
  | some s2 =>
    { s2 with idleThreadSize_ := s2.idleThreadSize_ + 1, curThreadSize_ := s2.curThreadSize_ + 1 }

/-- The member `submitTask`, from the moment `notFull_.wait_for(lock, 1s, pred)`
returns with the lock held: `s` is the pool at that moment and the return
value of `wait_for` is the value of its predicate
`taskQueue_.size() < (size_t)taskQueueMaxThreshHold_` on `s`.  The waiting
itself is the interleaving of other steps before this one. -/
def submitTask {U : Type} {El : U → Type} (s : ThreadPool Task) (sp : Task) :
    ThreadPool Task × Result Task U El :=
  if s.taskQueue_.length < toSizeT s.taskQueueMaxThreshHold_ then
    let s1 := { s with taskQueue_ := s.taskQueue_ ++ [sp], taskCnt_ := s.taskCnt_ + 1 }
    let s2 := if s1.needsNewThread then s1.createThread else s1
    (s2, Result.ctor sp true)
  else
    (s, Result.ctor sp false)

/-- The first statement of the destructor `~ThreadPool()` (line 17):
`isRunning_ = false`.  The destructor then wakes the waiting threads and
blocks until `dtor_done` holds. -/
def dtor_begin (s : ThreadPool Task) : ThreadPool Task :=
  { s with isRunning_ := false }

/-- The predicate of `exitCond_.wait` in the destructor (lines 21-22):
`threads_.size() == 0`. -/
def dtor_done (s : ThreadPool Task) : Bool := s.threads_.isEmpty

/-- The first loop of `start` (lines 49-59), with `k` iterations left. -/
def start_create : Nat → ThreadPool Task → ThreadPool Task
  | 0, s => s
  | k + 1, s => start_create k s.emplaceNewThread

/-- The second loop of `start` (lines 66-70), with `k` iterations left and
loop counter `i`. -/
def start_launch : Nat → Int → ThreadPool Task → Option (ThreadPool Task)
  | 0, _, s => some s
  | k + 1, i, s =>
    match s.startThreadAt i with
    | none => none
    | some s1 => start_launch k (i + 1) { s1 with idleThreadSize_ := s1.idleThreadSize_ + 1 }

/-- The member `start`.  A negative argument becomes a `size_t` above
`2^63`, which the `int` loop counter cannot reach without overflow: `none`. -/
def start (s : ThreadPool Task) (initThreadSize : Int) : Option (ThreadPool Task) :=
  if initThreadSize < 0 then none
  else
    let s1 := { s with
      isRunning_ := true
      initThreadSize_ := toSizeT initThreadSize
      curThreadSize_ := initThreadSize }
    let s2 := start_create s1.initThreadSize_ s1
    start_launch s2.initThreadSize_ 0 s2

/-! ### threadFunc -/

/-- The expression `duration_cast<seconds>(now - lastTime).count()` for clock
readings in nanoseconds: the quotient rounded toward zero. -/
def durSeconds (now lastTime : Int) : Int := Int.tdiv (now - lastTime) 1000000000

/-- What a thread does with the lock held from the test of
`while (taskCnt_ == 0)` on (lines 107-149). -/
inductive LoopHead where
  /-- The condition is false: the loop is left toward line 150. -/
  | dequeue
  /-- The branch `if (!isRunning_)` (lines 110-116). -/
  | exitShutdown
  /-- The thread blocks in `notEmpty_.wait_for(lock, 1s)` (line 125). -/
  | waitTimed
  /-- The thread blocks in `notEmpty_.wait(lock)` (line 147). -/
  | waitUntimed
  deriving DecidableEq

/-- The tests at the head of the wait loop: `taskCnt_ == 0`, `!isRunning_`,
`poolMode_ == PoolMode::MODE_CACHED`. -/
def threadFunc_loopHead (s : ThreadPool Task) : LoopHead :=
  if s.taskCnt_ ≠ 0 then .dequeue
  else if !s.isRunning_ then .exitShutdown
  else if s.poolMode_ = .MODE_CACHED then .waitTimed
  else .waitUntimed

/-- The members changed by lines 112-115: `threads_.erase(threadId)`. -/
def threadFunc_exitShutdown (s : ThreadPool Task) (threadId : Int) : ThreadPool Task :=
  { s with threads_ := s.threads_.erase threadId }

/-- The two tests after `wait_for` has returned (lines 125-130) on the pool
`s` of that moment: the status is `timeout`, and
`dur.count() >= THREAD_MAX_IDLE_TIME && curThreadSize_ > initThreadSize_`
(the second comparison is between `int` and `size_t`). -/
def threadFunc_idleExpired (s : ThreadPool Task) (lastTime : Int) (status : CvStatus)
    (now : Int) : Bool :=
  decide (status = .timeout) && decide (THREAD_MAX_IDLE_TIME ≤ durSeconds now lastTime)
    && decide (s.initThreadSize_ < toSizeT s.curThreadSize_)

/-- The members changed by lines 136-140: `threads_.erase(threadId)`,
`curThreadSize_--`, `idleThreadSize_--`. -/
def threadFunc_reclaim (s : ThreadPool Task) (threadId : Int) : ThreadPool Task :=
  { s with
    threads_ := s.threads_.erase threadId
    curThreadSize_ := s.curThreadSize_ - 1
    idleThreadSize_ := s.idleThreadSize_ - 1 }

/-- Lines 150-155: `idleThreadSize_--`, `task = taskQueue_.front()`,
`taskQueue_.pop()`, `taskCnt_--`; reached with `taskCnt_ != 0`.  `front()` on
an empty queue is `none`. -/
def threadFunc_dequeue (s : ThreadPool Task) : Option (Task × ThreadPool Task) :=
  match s.taskQueue_ with
  | [] => none
  | task :: rest =>
    some (task, { s with
      idleThreadSize_ := s.idleThreadSize_ - 1
      taskQueue_ := rest
      taskCnt_ := s.taskCnt_ - 1 })

/-- The member changed by line 171, after `task->exec()`: `idleThreadSize_++`. -/
def threadFunc_afterTask (s : ThreadPool Task) : ThreadPool Task :=
  { s with idleThreadSize_ := s.idleThreadSize_ + 1 }

end ThreadPool

/-! ## The pool as a transition system -/

/-- Replaces the element at position `i`. -/
def setAt {α : Type} : List α → Nat → α → List α
  | [], _, _ => []
  | _ :: xs, 0, a => a :: xs
  | x :: xs, i + 1, a => x :: setAt xs i a

/-- Removes the element at position `i`. -/
def dropAt {α : Type} : List α → Nat → List α
  | [], _ => []
  | _ :: xs, 0 => xs
  | x :: xs, i + 1 => x :: dropAt xs i

namespace ThreadPool

variable {Task : Type}

/-- The thread at position `i` of `osThreads`, holding the lock, runs from the
test of the wait loop to the point where it blocks, returns, or leaves the
critical section with a task. -/
def runLoopHead (s : ThreadPool Task) (i : Nat) (w : OsThread Task) :
    Option (ThreadPool Task) :=
  match threadFunc_loopHead s with
  | .dequeue =>
    match threadFunc_dequeue s with
    | none => none
    | some (task, s1) =>
      some { s1 with osThreads := setAt s1.osThreads i { w with pc := .executing task } }
  | .exitShutdown =>
    let s1 := threadFunc_exitShutdown s w.threadId
    some { s1 with osThreads := dropAt s1.osThreads i }
  | .waitTimed => some { s with osThreads := setAt s.osThreads i { w with pc := .timedWait } }
  | .waitUntimed => some { s with osThreads := setAt s.osThreads i { w with pc := .untimedWait } }

/-- The calls of the public interface and the moves of the threads running
`threadFunc`; `i` is a position in `osThreads`, `now` a reading of the clock. -/
inductive Op (Task : Type) where
  | setMode (mode : PoolMode)
  | setTaskQueueMaxThreshHold (threshHold : Int)
  | setThreadSizeThreshhold (threshHold : Int)
  | start (initThreadSize : Int)
  | submitTask (sp : Task)
  /-- The destructor sets `isRunning_ = false` (line 17). -/
  | dtor
  /-- The thread enters `threadFunc` and reads the clock (line 94). -/
  | enter (i : Nat) (now : Int)
  /-- The thread takes the lock (line 102) and runs the head of the wait loop. -/
  | lock (i : Nat)
  /-- The thread returns from `wait_for` (line 125). -/
  | wakeTimed (i : Nat) (status : CvStatus) (now : Int)
  /-- The thread returns from `wait` (line 147). -/
  | wakeUntimed (i : Nat)
  /-- The thread has executed its task, counts itself idle and reads the clock
  (lines 165-173). -/
  | finish (i : Nat) (now : Int)

/-- One step of the pool; `none` when the thread `i` is not at the place the
move starts from, or when the step has undefined behaviour. -/
def step (s : ThreadPool Task) : Op Task → Option (ThreadPool Task)
  | .setMode mode => some (s.setMode mode)
  | .setTaskQueueMaxThreshHold k => some (s.setTaskQueueMaxThreshHold k)
  | .setThreadSizeThreshhold k => some (s.setThreadSizeThreshhold k)
  | .start n => s.start n
  | .submitTask sp => some (@submitTask Task Unit (fun _ => Unit) s sp).1
  | .dtor => some s.dtor_begin
  | .enter i now =>
    match s.osThreads[i]? with
    | some ⟨tid, _, .spawned⟩ =>
      some { s with osThreads := setAt s.osThreads i ⟨tid, now, .ready⟩ }
    | _ => none
  | .lock i =>
    match s.osThreads[i]? with
    | some ⟨tid, lastTime, .ready⟩ => s.runLoopHead i ⟨tid, lastTime, .ready⟩
    | _ => none
  | .wakeTimed i status now =>
    match s.osThreads[i]? with
    | some ⟨tid, lastTime, .timedWait⟩ =>
      if threadFunc_idleExpired s lastTime status now then
        let s1 := threadFunc_reclaim s tid
        some { s1 with osThreads := dropAt s1.osThreads i }
      else s.runLoopHead i ⟨tid, lastTime, .timedWait⟩
    | _ => none
  | .wakeUntimed i =>
    match s.osThreads[i]? with
    | some ⟨tid, lastTime, .untimedWait⟩ => s.runLoopHead i ⟨tid, lastTime, .untimedWait⟩
    | _ => none
  | .finish i now =>
    match s.osThreads[i]? with
    | some ⟨tid, _, .executing _⟩ =>
      let s1 := threadFunc_afterTask s
      some { s1 with osThreads := setAt s1.osThreads i ⟨tid, now, .ready⟩ }
    | _ => none

/-- The pool after a sequence of steps. -/
def run (s : ThreadPool Task) : List (Op Task) → Option (ThreadPool Task)
  | [] => some s
  | op :: ops =>
    match s.step op with
    | none => none
    | some s1 => run s1 ops

/-- The states reachable from a freshly constructed pool by steps that the
predicate `allowed` admits. -/
inductive ReachableUnder (allowed : ThreadPool Task → Op Task → Prop) :
    ThreadPool Task → Prop where
  | ctor (generateId : Int) : ReachableUnder allowed (ThreadPool.ctor generateId)
  | step {s s1 : ThreadPool Task} (op : Op Task) :
      ReachableUnder allowed s → allowed s op → s.step op = some s1 →
      ReachableUnder allowed s1

/-- The states reachable from a freshly constructed pool by any sequence of
steps. -/
def Reachable (s : ThreadPool Task) : Prop := ReachableUnder (fun _ _ => True) s

end ThreadPool

/-! ## Predicates on states and steps -/

/-- Counts 1 for a thread that holds a dequeued task. -/
def Pc.weight {Task : Type} (pc : Pc Task) : Nat := if pc.isExecuting then 1 else 0

/-- The number of threads that hold a dequeued task: they have passed
`idleThreadSize_--` (line 150) and not yet `idleThreadSize_++` (line 171). -/
def busy {Task : Type} : List (OsThread Task) → Nat
  | [] => 0
  | w :: ws => w.pc.weight + busy ws

/-- The registry entries created for the ids `g, g + 1, ..., g + k - 1`. -/
def idRange (g : Int) : Nat → ThreadMap
  | 0 => []
  | k + 1 => (g, ⟨g⟩) :: idRange (g + 1) k

/-- The threads started for the ids `i, i + 1, ..., i + k - 1`, none of which
has entered `threadFunc`. -/
def spawnedRange {Task : Type} (i : Int) : Nat → List (OsThread Task)
  | 0 => []
  | k + 1 => ⟨i, 0, .spawned⟩ :: spawnedRange (i + 1) k

namespace ThreadPool

variable {Task : Type}

/-- The steps admitted in the amended queue bound: a call of
`setTaskQueueMaxThreshHold(k)` is made while the pool is running (it is
ignored) or with `k` at least the number of queued tasks. -/
def allowedQueue (s : ThreadPool Task) : Op Task → Prop
  | .setTaskQueueMaxThreshHold k => s.isRunning_ = true ∨ (s.taskQueue_.length : Int) ≤ k
  | _ => True

/-- The effect of a step on the members of the pool, by the path taken through
the code: what `step_effect` proves of every step. -/
inductive Effect (s : ThreadPool Task) : Op Task → ThreadPool Task → Prop where
  | ignored (op : Op Task) : Effect s op s
  | setMode (mode : PoolMode) : s.isRunning_ = false →
      Effect s (.setMode mode) { s with poolMode_ := mode }
  | setCap (k : Int) : s.isRunning_ = false →
      Effect s (.setTaskQueueMaxThreshHold k) { s with taskQueueMaxThreshHold_ := k }
  | setMax (k : Int) : s.isRunning_ = false → s.poolMode_ = .MODE_FIXED →
      Effect s (.setThreadSizeThreshhold k) { s with maxThreadSize_ := toSizeT k }
  | start (n : Int) (s1 : ThreadPool Task) : 0 ≤ n → s.start n = some s1 →
      s1.isRunning_ = true → s1.initThreadSize_ = toSizeT n → s1.curThreadSize_ = n →
      s1.idleThreadSize_ = s.idleThreadSize_ + (toSizeT n : Int) →
      s1.maxThreadSize_ = s.maxThreadSize_ → s1.taskQueue_ = s.taskQueue_ →
      s1.taskCnt_ = s.taskCnt_ → s1.taskQueueMaxThreshHold_ = s.taskQueueMaxThreshHold_ →
      s1.poolMode_ = s.poolMode_ → busy s1.osThreads = busy s.osThreads →
      Effect s (.start n) s1
  | enqueue (sp : Task) : s.taskQueue_.length < toSizeT s.taskQueueMaxThreshHold_ →
      Effect s (.submitTask sp)
        { s with taskQueue_ := s.taskQueue_ ++ [sp], taskCnt_ := s.taskCnt_ + 1 }
  | enqueueGrow (sp : Task) (a : OsThread Task) :
      s.taskQueue_.length < toSizeT s.taskQueueMaxThreshHold_ →
      s.poolMode_ = .MODE_CACHED → toSizeT s.curThreadSize_ < s.maxThreadSize_ →
      a.pc.weight = 0 →
      Effect s (.submitTask sp)
        { s with
          taskQueue_ := s.taskQueue_ ++ [sp]
          taskCnt_ := s.taskCnt_ + 1
          threads_ := s.threads_.emplace s.generateId_ ⟨s.generateId_⟩
          generateId_ := s.generateId_ + 1
          osThreads := s.osThreads ++ [a]
          idleThreadSize_ := s.idleThreadSize_ + 1
          curThreadSize_ := s.curThreadSize_ + 1 }
  | dtor : Effect s .dtor { s with isRunning_ := false }
  | move (op : Op Task) (i : Nat) (w a : OsThread Task) : s.osThreads[i]? = some w →
      w.pc.weight = 0 → a.pc.weight = 0 →
      Effect s op { s with osThreads := setAt s.osThreads i a }
  | dequeue (op : Op Task) (i : Nat) (w a : OsThread Task) (task : Task) (rest : List Task) :
      s.osThreads[i]? = some w → w.pc.weight = 0 → a.pc.weight = 1 →
      s.taskCnt_ ≠ 0 → s.taskQueue_ = task :: rest →
      Effect s op
        { s with
          idleThreadSize_ := s.idleThreadSize_ - 1
          taskQueue_ := rest
          taskCnt_ := s.taskCnt_ - 1
          osThreads := setAt s.osThreads i a }
  | exitShutdown (op : Op Task) (i : Nat) (w : OsThread Task) : s.osThreads[i]? = some w →
      w.pc.weight = 0 → s.taskCnt_ = 0 → s.isRunning_ = false →
      Effect s op
        { s with
          threads_ := s.threads_.erase w.threadId
          osThreads := dropAt s.osThreads i }
  | exitIdle (op : Op Task) (i : Nat) (w : OsThread Task) : s.osThreads[i]? = some w →
      w.pc.weight = 0 → s.initThreadSize_ < toSizeT s.curThreadSize_ →
      Effect s op
        { s with
          threads_ := s.threads_.erase w.threadId
          curThreadSize_ := s.curThreadSize_ - 1
          idleThreadSize_ := s.idleThreadSize_ - 1
          osThreads := dropAt s.osThreads i }
  | finish (op : Op Task) (i : Nat) (w a : OsThread Task) : s.osThreads[i]? = some w →
      w.pc.weight = 1 → a.pc.weight = 0 →
      Effect s op
        { s with
          idleThreadSize_ := s.idleThreadSize_ + 1
          osThreads := setAt s.osThreads i a }

/-- Every registered id is below the next id to be given out. -/
def IdsBelowNext (s : ThreadPool Task) : Prop := ∀ e ∈ s.threads_, e.1 < s.generateId_

/-- A run of a cached-mode pool started with one worker: two tasks are
submitted, the second submission creates a second worker, each worker takes a
task and finishes it when the clock reads 5 s. -/
def idleRun : List (Op Nat) :=
  [.setMode .MODE_CACHED, .start 1, .submitTask 1, .submitTask 2, .enter 0 0, .lock 0,
    .enter 1 0, .lock 1, .finish 0 5000000000, .finish 1 5000000000]

/-- The pool after `idleRun`. -/
def idlePool : ThreadPool Nat := ((ThreadPool.ctor 0).run idleRun).getD (ThreadPool.ctor 0)

/-- The task that the call `submitTask(sp)` on the pool `s` puts in the queue:
`sp` when the `Result` it returns is valid. -/
def enqueuedBy (s : ThreadPool Task) : Op Task → Option Task
  | .submitTask sp =>
    if (@submitTask Task Unit (fun _ => Unit) s sp).2.isValid_ then some sp else none
  | _ => none

/-- The task that thread `i` holds in `s1`, the pool after a step from `s` in
which no thread has returned. -/
def heldAfter (s s1 : ThreadPool Task) (i : Nat) : Option Task :=
  if s1.osThreads.length = s.osThreads.length then
    match s1.osThreads[i]? with
    | some ⟨_, _, .executing task⟩ => some task
    | _ => none
  else none

/-- The task that the thread making the step has taken from the queue
(`task = taskQueue_.front()`, line 153).  The moves `lock`, `wakeTimed` and
`wakeUntimed` start from a thread that holds no task, so the task it holds
afterwards is the one it has dequeued in the step. -/
def dequeuedBy (s s1 : ThreadPool Task) : Op Task → Option Task
  | .lock i => heldAfter s s1 i
  | .wakeTimed i _ _ => heldAfter s s1 i
  | .wakeUntimed i => heldAfter s s1 i
  | _ => none

/-- The tasks of the successful `submitTask` calls and the tasks dequeued by
the worker threads, each in the order of the steps. -/
structure History (Task : Type) where
  submitted : List Task
  dequeued : List Task

/-- The pool and the history after a sequence of steps. -/
def runHist (s : ThreadPool Task) (h : History Task) :
    List (Op Task) → Option (ThreadPool Task × History Task)
  | [] => some (s, h)
  | op :: ops =>
    match s.step op with
    | none => none
    | some s1 =>
      runHist s1
        ⟨h.submitted ++ (enqueuedBy s op).toList, h.dequeued ++ (dequeuedBy s s1 op).toList⟩
        ops

/-- A run of a fixed-mode pool with two workers: three tasks are submitted and
the workers take the first two, worker 1 before worker 0. -/
def fifoRun : List (Op Nat) :=
  [.start 2, .submitTask 5, .submitTask 6, .enter 0 0, .enter 1 0, .submitTask 7, .lock 1,
    .lock 0]

/-- The pool and the history after `fifoRun`. -/
def fifoOutcome : ThreadPool Nat × History Nat :=
  ((ThreadPool.ctor 0).runHist ⟨[], []⟩ fifoRun).getD (ThreadPool.ctor 0, ⟨[], []⟩)

/-- A fixed-mode pool after `start(2)`. -/
def startedPool : ThreadPool Nat :=
  ((ThreadPool.ctor 0).run [.start 2]).getD (ThreadPool.ctor 0)

/-- A run in which shutdown is requested while a task is queued: the single
worker of a fixed-mode pool is blocked in `wait`, task 7 is submitted, and the
destructor sets `isRunning_ = false` before the worker has run again. -/
def stopRun : List (Op Nat) := [.start 1, .enter 0 0, .lock 0, .submitTask 7, .dtor]

/-- The pool after `stopRun`. -/
def stoppedPool : ThreadPool Nat := ((ThreadPool.ctor 0).run stopRun).getD (ThreadPool.ctor 0)

end ThreadPool

/-! ## Any and Result -/

theorem Any.cast_ctor_self {U : Type} [DecidableEq U] {El : U → Type}
    (T : CppType U) (v : T.Val El) : (Any.ctor T v).cast_ T = .ok v := by
  simp [Any.cast_, Any.dynamic_cast, Any.ctor]

theorem Any.cast_ctor_other {U : Type} [DecidableEq U] {El : U → Type}
    (T T' : CppType U) (v : T.Val El) (h : T' ≠ T) :
    (Any.ctor T v).cast_ T' = .error "type is incompatible!" := by
  have h' : ¬ T = T' := fun e => h e.symm
  simp [Any.cast_, Any.dynamic_cast, Any.ctor, h']

theorem Any.cast_empty {U : Type} [DecidableEq U] {El : U → Type} (T : CppType U) :
    (Any.empty : Any U El).cast_ T = .error "type is incompatible!" := by
  simp [Any.cast_, Any.dynamic_cast, Any.empty]

/-- C5 as stated fails.  For the `Result` built by `Result(task, false)`, `get`
returns at once, but the `Any` it returns is not empty: its `base_` is not
null, and `cast_<std::nullptr_t>()` on it succeeds. -/
theorem Result.get_invalid_not_empty :
    ∃ a r1, (Result.ctor () false : Result Unit Unit (fun _ => Nat)).get = some (a, r1) ∧
      a.base_ ≠ none ∧ a ≠ Any.empty ∧ a.cast_ .nullptr_t = .ok () := by
  refine ⟨Any.ofNullptr, Result.ctor () false, rfl, ?_, ?_, rfl⟩
  · simp [Any.ofNullptr, Any.ctor]
  · intro h
    have hb := congrArg Any.base_ h
    simp [Any.ofNullptr, Any.ctor, Any.empty] at hb

/-- C5, amended.  On a `Result` constructed with `isValid = false`, `get`
returns without waiting, whatever the count of the semaphore, and leaves the
`Result` (its semaphore included) as it was.  The value returned is
`Any(nullptr)`: it stores a `std::nullptr_t`, so `cast_<std::nullptr_t>()`
succeeds and `cast_<T>()` fails with the type-incompatible error for every
other type `T`. -/
theorem Result.get_invalid {Task U : Type} [DecidableEq U] {El : U → Type}
    (r : Result Task U El) (hinvalid : r.isValid_ = false) :
    r.get = some (Any.ofNullptr, r) ∧
    (Any.ofNullptr : Any U El).base_ = some ⟨.nullptr_t, ()⟩ ∧
    (Any.ofNullptr : Any U El).cast_ .nullptr_t = .ok () ∧
    ∀ T, T ≠ .nullptr_t → (Any.ofNullptr : Any U El).cast_ T = .error "type is incompatible!" := by
  refine ⟨?_, rfl, ?_, ?_⟩
  · simp [Result.get, hinvalid]
  · exact Any.cast_ctor_self _ _
  · intro T hT
    exact Any.cast_ctor_other _ _ _ hT

/-- The hypothesis of `Result.get_invalid` holds for `Result(task, false)`. -/
theorem Result.get_invalid_witness :
    (Result.ctor 5 false : Result Nat Unit (fun _ => Nat)).get =
      some (Any.ofNullptr, Result.ctor 5 false) :=
  (Result.get_invalid (Result.ctor 5 false : Result Nat Unit (fun _ => Nat)) rfl).1

/-- C6. For a valid `Result` whose semaphore count is 0 (as the constructor
leaves it), `get` blocks; `Task::exec` of a task whose `run()` returns the
value `v` of type `T` performs `setVal(Any(v))`, after which the count is 1;
`get` then returns an `Any` from which `cast_<T>()` gives back `v`, and it
leaves the count at 0 and the stored `Any` moved from (empty), so a second
`get` blocks. -/
theorem Result.get_after_setVal {Task U : Type} [DecidableEq U] {El : U → Type}
    (r : Result Task U El) (T : CppType U) (v : T.Val El)
    (hvalid : r.isValid_ = true) (hsem : r.sem_.resLimit_ = 0) :
    r.get = none ∧
    TPool.Task.exec (Any.ctor T v) (some r) = some (r.setVal (Any.ctor T v)) ∧
    (r.setVal (Any.ctor T v)).sem_.resLimit_ = 1 ∧
    ∃ a r2, (r.setVal (Any.ctor T v)).get = some (a, r2) ∧
      a.cast_ T = .ok v ∧
      r2.sem_.resLimit_ = 0 ∧ r2.any_ = Any.empty ∧ r2.get = none := by
  refine ⟨?_, rfl, ?_, Any.ctor T v, { r with any_ := Any.empty, sem_ := ⟨0⟩ }, ?_,
    Any.cast_ctor_self T v, rfl, rfl, ?_⟩
  · simp [Result.get, hvalid, Semaphore.wait, hsem]
  · simp [Result.setVal, Semaphore.post, hsem]
  · simp [Result.get, Result.setVal, Semaphore.post, Semaphore.wait, hvalid, hsem]
  · simp [Result.get, hvalid, Semaphore.wait]

/-- The hypotheses of `Result.get_after_setVal` hold for `Result(task)`; the
value is the sum that `MyTask(1, 100000000)::run()` returns as an
`unsigned long long`. -/
theorem Result.get_after_setVal_witness :
    (Result.ctor () true : Result Unit Unit (fun _ => Nat)).get = none ∧
    ∃ a r2, ((Result.ctor () true : Result Unit Unit (fun _ => Nat)).setVal
        (Any.ctor (.user ()) (5000000050000000 : Nat))).get = some (a, r2) ∧
      a.cast_ (.user ()) = .ok (5000000050000000 : Nat) :=
  have h := Result.get_after_setVal (Result.ctor () true : Result Unit Unit (fun _ => Nat))
    (.user ()) (5000000050000000 : Nat) rfl rfl
  ⟨h.1, h.2.2.2.imp fun _ ha => ha.imp fun _ hr => ⟨hr.1, hr.2.1⟩⟩

/-- C7. From an `Any` that holds the value `v` of type `T`, `cast_<T>()`
returns `v` and `cast_<T'>()` fails with the type-incompatible error for every
type `T'` other than `T`; on a default-constructed `Any`, `cast_<T'>()` fails
with that error for every `T'`. -/
theorem Any.cast_typed {U : Type} [DecidableEq U] {El : U → Type}
    (T : CppType U) (v : T.Val El) :
    (Any.ctor T v).cast_ T = .ok v ∧
    (∀ T', T' ≠ T → (Any.ctor T v).cast_ T' = .error "type is incompatible!") ∧
    (∀ T', (Any.empty : Any U El).cast_ T' = .error "type is incompatible!") := by
  refine ⟨?_, ?_, ?_⟩
  · simp [Any.cast_, Any.dynamic_cast, Any.ctor]
  · intro T' hne
    have hne' : ¬ T = T' := fun e => hne e.symm
    simp [Any.cast_, Any.dynamic_cast, Any.ctor, hne']
  · intro T'
    simp [Any.cast_, Any.dynamic_cast, Any.empty]

/-- An `Any` that holds the `int` 42 gives it back as `int`, and refuses to give
a `bool`. -/
theorem Any.cast_typed_witness :
    (Any.ctor (.user false) (42 : Int) :
        Any Bool (fun b => if b then Bool else Int)).cast_ (.user false) = .ok (42 : Int) ∧
    (Any.ctor (.user false) (42 : Int) :
        Any Bool (fun b => if b then Bool else Int)).cast_ (.user true) =
      .error "type is incompatible!" :=
  have h := @Any.cast_typed Bool _ (fun b => if b then Bool else Int) (.user false) (42 : Int)
  ⟨h.1, h.2.1 (.user true) (by decide)⟩

/-! ## Lemmas on the conversions and the registry -/

theorem toSizeT_le (x : Int) (h : 0 ≤ x) : (toSizeT x : Int) ≤ x := by
  unfold toSizeT
  omega

theorem toSizeT_eq (x : Int) (h0 : 0 ≤ x) (h1 : x < 18446744073709551616) :
    (toSizeT x : Int) = x := by
  unfold toSizeT
  omega

theorem ThreadMap.find_append (m : ThreadMap) (k : Int) (t : Thread) :
    ThreadMap.find (m ++ [(k, t)]) k = some ((ThreadMap.find m k).getD t) := by
  induction m with
  | nil => simp [ThreadMap.find]
  | cons e rest ih =>
    obtain ⟨k', t'⟩ := e
    by_cases hk : k' = k
    · simp [ThreadMap.find, hk]
    · simpa [ThreadMap.find, hk] using ih

theorem ThreadMap.find_emplace (m : ThreadMap) (k : Int) (t : Thread) :
    ThreadMap.find (ThreadMap.emplace m k t) k = some ((ThreadMap.find m k).getD t) := by
  unfold ThreadMap.emplace
  cases hfind : ThreadMap.find m k with
  | none => simpa [hfind] using ThreadMap.find_append m k t
  | some t' => simp [hfind]

theorem ThreadMap.find_erase (m : ThreadMap) (k : Int) :
    ThreadMap.find (ThreadMap.erase m k) k = none := by
  induction m with
  | nil => simp [ThreadMap.erase, ThreadMap.find]
  | cons e rest ih =>
    obtain ⟨k', t'⟩ := e
    by_cases hk : k' = k
    · simpa [ThreadMap.erase, hk] using ih
    · simp only [ThreadMap.erase] at ih
      simp [ThreadMap.erase, ThreadMap.find, hk, List.filter_cons]
      simpa using ih

theorem busy_append {Task : Type} (l l' : List (OsThread Task)) : busy (l ++ l') = busy l + busy l' := by
  induction l with
  | nil => simp [busy]
  | cons w ws ih => simp [busy, ih, Nat.add_assoc]

theorem length_setAt {α : Type} (l : List α) (i : Nat) (a : α) :
    (setAt l i a).length = l.length := by
  induction l generalizing i with
  | nil => simp [setAt]
  | cons x xs ih =>
    cases i with
    | zero => simp [setAt]
    | succ j => simp [setAt, ih]

theorem length_dropAt {α : Type} (l : List α) (i : Nat) (w : α) (h : l[i]? = some w) :
    (dropAt l i).length + 1 = l.length := by
  induction l generalizing i with
  | nil => simp at h
  | cons x xs ih =>
    cases i with
    | zero => simp [dropAt]
    | succ j =>
      simp at h
      simp [dropAt, ih j h]

theorem ThreadMap.find_eq_none (m : ThreadMap) (k : Int) (h : ∀ e ∈ m, e.1 ≠ k) :
    ThreadMap.find m k = none := by
  induction m with
  | nil => simp [ThreadMap.find]
  | cons e rest ih =>
    obtain ⟨k', t⟩ := e
    have hk : k' ≠ k := h (k', t) (by simp)
    simp only [ThreadMap.find, hk, if_false]
    exact ih (fun e he => h e (by simp [he]))

theorem ThreadMap.mem_emplace (m : ThreadMap) (k : Int) (t : Thread) (e : Int × Thread)
    (h : e ∈ ThreadMap.emplace m k t) : e ∈ m ∨ e = (k, t) := by
  unfold ThreadMap.emplace at h
  split at h
  · exact Or.inl h
  · simpa using h

theorem getElem?_setAt {α : Type} (l : List α) (i : Nat) (w a : α) (h : l[i]? = some w) :
    (setAt l i a)[i]? = some a := by
  induction l generalizing i with
  | nil => simp at h
  | cons x xs ih =>
    cases i with
    | zero => simp [setAt]
    | succ j =>
      simp only [List.getElem?_cons_succ] at h
      simpa [setAt] using ih j h

theorem find_idRange (g : Int) (k : Nat) (i : Int) :
    ThreadMap.find (idRange g k) i = if g ≤ i ∧ i < g + k then some ⟨i⟩ else none := by
  induction k generalizing g with
  | zero =>
    rw [if_neg (by omega)]
    rfl
  | succ k ih =>
    show (if g = i then some ⟨g⟩ else ThreadMap.find (idRange (g + 1) k) i) = _
    by_cases hgi : g = i
    · subst hgi
      rw [if_pos rfl, if_pos (by omega)]
    · rw [if_neg hgi, ih (g + 1)]
      by_cases hin : g ≤ i ∧ i < g + ((k + 1 : Nat) : Int)
      · rw [if_pos hin, if_pos (by omega)]
      · rw [if_neg hin, if_neg (by omega)]

namespace ThreadPool

variable {Task : Type}

/-- The lookup `threads_[threadId]` of `createThread` finds an entry. -/
theorem startThreadAt_emplaceNewThread (s : ThreadPool Task) :
    s.emplaceNewThread.startThreadAt s.generateId_ =
      some { s.emplaceNewThread with
        osThreads := s.osThreads ++
          [⟨((s.threads_.find s.generateId_).getD ⟨s.generateId_⟩).threadId_, 0, .spawned⟩] } := by
  simp [startThreadAt, emplaceNewThread, ThreadMap.find_emplace]

/-- The pool after `createThread`, member by member. -/
theorem createThread_eq (s : ThreadPool Task) :
    s.createThread =
      { s with
        threads_ := s.threads_.emplace s.generateId_ ⟨s.generateId_⟩
        generateId_ := s.generateId_ + 1
        osThreads := s.osThreads ++
          [⟨((s.threads_.find s.generateId_).getD ⟨s.generateId_⟩).threadId_, 0, .spawned⟩]
        idleThreadSize_ := s.idleThreadSize_ + 1
        curThreadSize_ := s.curThreadSize_ + 1 } := by
  unfold createThread
  simp only [startThreadAt_emplaceNewThread]
  rfl

/-! ## Steps and their effects -/

theorem runLoopHead_cases (s s1 : ThreadPool Task) (i : Nat) (w : OsThread Task)
    (h : s.runLoopHead i w = some s1) :
    (∃ task rest, s.taskCnt_ ≠ 0 ∧ s.taskQueue_ = task :: rest ∧
      s1 = { s with
        idleThreadSize_ := s.idleThreadSize_ - 1
        taskQueue_ := rest
        taskCnt_ := s.taskCnt_ - 1
        osThreads := setAt s.osThreads i { w with pc := .executing task } }) ∨
    (s.taskCnt_ = 0 ∧ s.isRunning_ = false ∧
      s1 = { s with
        threads_ := s.threads_.erase w.threadId
        osThreads := dropAt s.osThreads i }) ∨
    (s.taskCnt_ = 0 ∧ s.isRunning_ = true ∧ s.poolMode_ = .MODE_CACHED ∧
      s1 = { s with osThreads := setAt s.osThreads i { w with pc := .timedWait } }) ∨
    (s.taskCnt_ = 0 ∧ s.isRunning_ = true ∧ s.poolMode_ ≠ .MODE_CACHED ∧
      s1 = { s with osThreads := setAt s.osThreads i { w with pc := .untimedWait } }) := by
  unfold runLoopHead at h
  by_cases hcnt : s.taskCnt_ = 0
  · by_cases hrun : s.isRunning_ = true
    · by_cases hmode : s.poolMode_ = .MODE_CACHED
      · have hh : threadFunc_loopHead s = .waitTimed := by
          simp [threadFunc_loopHead, hcnt, hrun, hmode]
        rw [hh] at h
        exact Or.inr (Or.inr (Or.inl ⟨hcnt, hrun, hmode, (Option.some.inj h).symm⟩))
      · have hh : threadFunc_loopHead s = .waitUntimed := by
          simp [threadFunc_loopHead, hcnt, hrun, hmode]
        rw [hh] at h
        exact Or.inr (Or.inr (Or.inr ⟨hcnt, hrun, hmode, (Option.some.inj h).symm⟩))
    · have hh : threadFunc_loopHead s = .exitShutdown := by
        simp [threadFunc_loopHead, hcnt, hrun]
      rw [hh] at h
      simp only [Bool.not_eq_true] at hrun
      exact Or.inr (Or.inl ⟨hcnt, hrun, (Option.some.inj h).symm⟩)
  · have hh : threadFunc_loopHead s = .dequeue := by
      simp [threadFunc_loopHead, hcnt]
    rw [hh] at h
    cases hq : s.taskQueue_ with
    | nil => simp [threadFunc_dequeue, hq] at h
    | cons task rest =>
      have hd : threadFunc_dequeue s = some (task, { s with
          idleThreadSize_ := s.idleThreadSize_ - 1
          taskQueue_ := rest
          taskCnt_ := s.taskCnt_ - 1 }) := by
        simp [threadFunc_dequeue, hq]
      rw [hd] at h
      exact Or.inl ⟨task, rest, hcnt, rfl, (Option.some.inj h).symm⟩

theorem runLoopHead_effect (s s1 : ThreadPool Task) (op : Op Task) (i : Nat) (w : OsThread Task)
    (hget : s.osThreads[i]? = some w) (hw : w.pc.weight = 0)
    (h : s.runLoopHead i w = some s1) : Effect s op s1 := by
  rcases runLoopHead_cases s s1 i w h with
    ⟨task, rest, hcnt, hq, rfl⟩ | ⟨hcnt, hrun, rfl⟩ | ⟨_, _, _, rfl⟩ | ⟨_, _, _, rfl⟩
  · exact Effect.dequeue op i w _ task rest hget hw rfl hcnt hq
  · exact Effect.exitShutdown op i w hget hw hcnt hrun
  · exact Effect.move op i w _ hget hw rfl
  · exact Effect.move op i w _ hget hw rfl

theorem start_create_fields (k : Nat) (s : ThreadPool Task) :
    (start_create k s).isRunning_ = s.isRunning_ ∧
    (start_create k s).initThreadSize_ = s.initThreadSize_ ∧
    (start_create k s).curThreadSize_ = s.curThreadSize_ ∧
    (start_create k s).idleThreadSize_ = s.idleThreadSize_ ∧
    (start_create k s).maxThreadSize_ = s.maxThreadSize_ ∧
    (start_create k s).taskQueue_ = s.taskQueue_ ∧
    (start_create k s).taskCnt_ = s.taskCnt_ ∧
    (start_create k s).taskQueueMaxThreshHold_ = s.taskQueueMaxThreshHold_ ∧
    (start_create k s).poolMode_ = s.poolMode_ ∧
    (start_create k s).osThreads = s.osThreads := by
  induction k generalizing s with
  | zero => simp [start_create]
  | succ k ih =>
    have h := ih s.emplaceNewThread
    simpa [start_create, emplaceNewThread] using h

theorem start_launch_fields (k : Nat) (i : Int) (s s1 : ThreadPool Task)
    (h : start_launch k i s = some s1) :
    s1.isRunning_ = s.isRunning_ ∧
    s1.initThreadSize_ = s.initThreadSize_ ∧
    s1.curThreadSize_ = s.curThreadSize_ ∧
    s1.idleThreadSize_ = s.idleThreadSize_ + (k : Int) ∧
    s1.maxThreadSize_ = s.maxThreadSize_ ∧
    s1.taskQueue_ = s.taskQueue_ ∧
    s1.taskCnt_ = s.taskCnt_ ∧
    s1.taskQueueMaxThreshHold_ = s.taskQueueMaxThreshHold_ ∧
    s1.poolMode_ = s.poolMode_ ∧
    busy s1.osThreads = busy s.osThreads := by
  induction k generalizing i s with
  | zero =>
    simp only [start_launch, Option.some.injEq] at h
    subst h
    simp
  | succ k ih =>
    simp only [start_launch] at h
    cases hst : s.startThreadAt i with
    | none => simp [hst] at h
    | some s2 =>
      rw [hst] at h
      have h2 := ih _ _ h
      unfold startThreadAt at hst
      cases hf : s.threads_.find i with
      | none => simp [hf] at hst
      | some t =>
        simp only [hf, Option.some.injEq] at hst
        subst hst
        simp only [busy_append] at h2
        simp only [h2, busy_append, busy, Pc.weight, Pc.isExecuting]
        simp
        omega

theorem step_effect (s s1 : ThreadPool Task) (op : Op Task) (h : s.step op = some s1) :
    Effect s op s1 := by
  cases op with
  | setMode mode =>
    simp only [step, Option.some.injEq] at h
    subst h
    unfold ThreadPool.setMode checkRunningState
    split
    · exact Effect.ignored _
    · exact Effect.setMode mode (by simpa using ‹¬ s.isRunning_ = true›)
  | setTaskQueueMaxThreshHold k =>
    simp only [step, Option.some.injEq] at h
    subst h
    unfold ThreadPool.setTaskQueueMaxThreshHold checkRunningState
    split
    · exact Effect.ignored _
    · exact Effect.setCap k (by simpa using ‹¬ s.isRunning_ = true›)
  | setThreadSizeThreshhold k =>
    simp only [step, Option.some.injEq] at h
    subst h
    unfold ThreadPool.setThreadSizeThreshhold checkRunningState
    split
    · exact Effect.ignored _
    · split
      · exact Effect.setMax k (by simpa using ‹¬ s.isRunning_ = true›) ‹_›
      · exact Effect.ignored _
  | start n =>
    simp only [step] at h
    have hstart := h
    unfold ThreadPool.start at h
    split at h
    · simp at h
    · rename_i hn
      have hl := start_launch_fields _ _ _ _ h
      have hc := start_create_fields (toSizeT n)
        { s with isRunning_ := true, initThreadSize_ := toSizeT n, curThreadSize_ := n }
      simp only at hl hc
      obtain ⟨c1, c2, c3, c4, c5, c6, c7, c8, c9, c10⟩ := hc
      obtain ⟨l1, l2, l3, l4, l5, l6, l7, l8, l9, l10⟩ := hl
      refine Effect.start n s1 (by omega) hstart ?_ ?_ ?_ ?_ ?_ ?_ ?_ ?_ ?_ ?_
      · rw [l1, c1]
      · rw [l2, c2]
      · rw [l3, c3]
      · rw [l4, c4, c2]
      · rw [l5, c5]
      · rw [l6, c6]
      · rw [l7, c7]
      · rw [l8, c8]
      · rw [l9, c9]
      · rw [l10, c10]
  | submitTask sp =>
    simp only [step, Option.some.injEq] at h
    subst h
    unfold ThreadPool.submitTask
    split
    · rename_i hroom
      dsimp only
      split
      · rename_i hneed
        simp only [needsNewThread, Bool.and_eq_true, decide_eq_true_eq] at hneed
        rw [createThread_eq]
        exact Effect.enqueueGrow sp _ hroom hneed.1.1 hneed.2 rfl
      · exact Effect.enqueue sp hroom
    · exact Effect.ignored _
  | dtor =>
    simp only [step, Option.some.injEq] at h
    subst h
    exact Effect.dtor
  | enter i now =>
    simp only [step] at h
    cases hget : s.osThreads[i]? with
    | none => simp [hget] at h
    | some w =>
      obtain ⟨tid, lt, pc⟩ := w
      cases pc <;> simp only [hget, Option.some.injEq, reduceCtorEq] at h
      subst h
      exact Effect.move _ i _ _ hget rfl rfl
  | lock i =>
    simp only [step] at h
    cases hget : s.osThreads[i]? with
    | none => simp [hget] at h
    | some w =>
      obtain ⟨tid, lt, pc⟩ := w
      cases pc <;> simp only [hget, reduceCtorEq] at h
      exact runLoopHead_effect s s1 _ i _ hget rfl h
  | wakeTimed i status now =>
    simp only [step] at h
    cases hget : s.osThreads[i]? with
    | none => simp [hget] at h
    | some w =>
      obtain ⟨tid, lt, pc⟩ := w
      cases pc <;> simp only [hget, reduceCtorEq] at h
      split at h
      · rename_i hexp
        simp only [Option.some.injEq] at h
        subst h
        simp only [threadFunc_idleExpired, Bool.and_eq_true, decide_eq_true_eq] at hexp
        exact Effect.exitIdle _ i _ hget rfl hexp.2
      · exact runLoopHead_effect s s1 _ i _ hget rfl h
  | wakeUntimed i =>
    simp only [step] at h
    cases hget : s.osThreads[i]? with
    | none => simp [hget] at h
    | some w =>
      obtain ⟨tid, lt, pc⟩ := w
      cases pc <;> simp only [hget, reduceCtorEq] at h
      exact runLoopHead_effect s s1 _ i _ hget rfl h
  | finish i now =>
    simp only [step] at h
    cases hget : s.osThreads[i]? with
    | none => simp [hget] at h
    | some w =>
      obtain ⟨tid, lt, pc⟩ := w
      cases pc <;> simp only [hget, Option.some.injEq, reduceCtorEq] at h
      subst h
      exact Effect.finish _ i _ _ hget rfl rfl

/-! ## Invariants of the reachable states -/

theorem ReachableUnder.invariant {allowed : ThreadPool Task → Op Task → Prop}
    (P : ThreadPool Task → Prop) (hctor : ∀ g, P (ThreadPool.ctor g))
    (hstep : ∀ s op s1, P s → allowed s op → s.step op = some s1 → P s1)
    {s : ThreadPool Task} (h : ReachableUnder allowed s) : P s := by
  induction h with
  | ctor g => exact hctor g
  | step op _ hal hs ih => exact hstep _ op _ ih hal hs

theorem taskCnt_eq_length {allowed : ThreadPool Task → Op Task → Prop} {s : ThreadPool Task}
    (h : ReachableUnder allowed s) : s.taskCnt_ = s.taskQueue_.length := by
  refine ReachableUnder.invariant (fun s => s.taskCnt_ = s.taskQueue_.length) ?_ ?_ h
  · intro g
    rfl
  · intro s op s1 hP _ hs
    have he := step_effect s s1 op hs
    cases he <;> simp_all

theorem emplaceNewThread_ids (s : ThreadPool Task) (h : IdsBelowNext s) :
    IdsBelowNext s.emplaceNewThread := by
  intro e he
  rcases ThreadMap.mem_emplace _ _ _ _ he with hm | rfl
  · have := h e hm
    show e.1 < s.generateId_ + 1
    omega
  · show s.generateId_ < s.generateId_ + 1
    omega

theorem reachable_run {s s1 : ThreadPool Task} (ops : List (Op Task)) (hs : Reachable s)
    (h : s.run ops = some s1) : Reachable s1 := by
  induction ops generalizing s with
  | nil =>
    simp only [run, Option.some.injEq] at h
    exact h ▸ hs
  | cons op ops ih =>
    simp only [run] at h
    cases hstep : s.step op with
    | none => simp [hstep] at h
    | some s2 =>
      rw [hstep] at h
      exact ih (ReachableUnder.step op hs trivial hstep) h

/-! ## The queue bound -/

/-- C1 as stated fails.  Two tasks are submitted to a new pool (capacity 4),
then `setTaskQueueMaxThreshHold(1)` is called; the pool is not running, so the
call takes effect: the queue holds 2 tasks and the capacity is 1. -/
theorem queue_bound_counterexample :
    ∃ s : ThreadPool Nat,
      (ThreadPool.ctor 0).run
        [.submitTask 1, .submitTask 2, .setTaskQueueMaxThreshHold 1] = some s ∧
      Reachable s ∧ s.taskQueue_.length = 2 ∧ s.taskQueueMaxThreshHold_ = 1 ∧
      ¬ (s.taskQueue_.length : Int) ≤ s.taskQueueMaxThreshHold_ :=
  ⟨_, rfl,
    reachable_run [.submitTask 1, .submitTask 2, .setTaskQueueMaxThreshHold 1]
      (ReachableUnder.ctor 0) rfl,
    rfl, rfl, by decide⟩

/-- C1, amended.  In every state reachable from a new pool by calls of
`setMode`, `setTaskQueueMaxThreshHold`, `setThreadSizeThreshhold`, `start`,
`submitTask`, the destructor and moves of the worker threads, in which every
call `setTaskQueueMaxThreshHold(k)` is made while the pool is running or with
`k` at least the number of queued tasks, the queue length and the counter
`taskCnt_` are between 0 and `taskQueueMaxThreshHold_`. -/
theorem queue_bound {s : ThreadPool Task} (h : ReachableUnder allowedQueue s) :
    0 ≤ (s.taskQueue_.length : Int) ∧
    (s.taskQueue_.length : Int) ≤ s.taskQueueMaxThreshHold_ ∧
    0 ≤ (s.taskCnt_ : Int) ∧
    (s.taskCnt_ : Int) ≤ s.taskQueueMaxThreshHold_ := by
  have hcnt := taskCnt_eq_length h
  suffices hle : (s.taskQueue_.length : Int) ≤ s.taskQueueMaxThreshHold_ by
    refine ⟨by omega, hle, by omega, ?_⟩
    rw [hcnt]
    exact hle
  clear hcnt
  induction h with
  | ctor g =>
    show ((0 : Nat) : Int) ≤ 4
    decide
  | @step s s1 op _ hal hs hP =>
    have he := step_effect s s1 op hs
    cases he with
    | setCap k hrun =>
      simp only [allowedQueue, hrun, Bool.false_eq_true, false_or] at hal
      exact hal
    | start n s1 _ _ _ _ _ _ _ hq _ hcap _ _ =>
      rw [hq, hcap]
      exact hP
    | enqueue sp hroom =>
      have hcap : 0 ≤ s.taskQueueMaxThreshHold_ := by omega
      have := toSizeT_le _ hcap
      simp only [List.length_append, List.length_singleton]
      push_cast
      omega
    | enqueueGrow sp a hroom _ _ _ =>
      have hcap : 0 ≤ s.taskQueueMaxThreshHold_ := by omega
      have := toSizeT_le _ hcap
      simp only [List.length_append, List.length_singleton]
      push_cast
      omega
    | dequeue op i w a task rest _ _ _ _ hq =>
      simp only
      rw [hq] at hP
      simp only [List.length_cons] at hP
      push_cast at hP
      omega
    | _ => exact hP

/-- A run that `allowedQueue` admits: the capacity is set to 1 before any
submission, the pool is started, the first task is queued and the second is
refused. -/
theorem queue_bound_witness :
    ∃ s : ThreadPool Nat,
      (ThreadPool.ctor 0).run
        [.setTaskQueueMaxThreshHold 1, .start 1, .submitTask 5, .submitTask 6] = some s ∧
      s.taskQueue_ = [5] ∧ (s.taskQueue_.length : Int) ≤ s.taskQueueMaxThreshHold_ := by
  have h0 : ReachableUnder allowedQueue (ThreadPool.ctor 0 : ThreadPool Nat) := .ctor 0
  have h1 := ReachableUnder.step (.setTaskQueueMaxThreshHold 1) h0 (Or.inr (by decide)) rfl
  have h2 := ReachableUnder.step (.start 1) h1 trivial rfl
  have h3 := ReachableUnder.step (.submitTask 5) h2 trivial rfl
  have h4 := ReachableUnder.step (.submitTask 6) h3 trivial rfl
  exact ⟨_, rfl, rfl, (queue_bound h4).2.1⟩

/-! ## The worker counts -/

/-- A second `start` adds to `idleThreadSize_` and resets `curThreadSize_`:
after `start(2); start(2)` the idle count is 4 and the current count 2. -/
theorem start_twice_idle_above_current :
    ∃ s : ThreadPool Nat,
      (ThreadPool.ctor 0).run [.start 2, .start 2] = some s ∧
      s.idleThreadSize_ = 4 ∧ s.curThreadSize_ = 2 :=
  ⟨_, rfl, rfl, rfl⟩

/-- Before `start`, a submission in cached mode creates a worker; back in fixed
mode `setThreadSizeThreshhold(0)` then puts `maxThreadSize_` below
`curThreadSize_`. -/
theorem threshold_below_current :
    ∃ s : ThreadPool Nat,
      (ThreadPool.ctor 0).run
        [.setMode .MODE_CACHED, .submitTask 1, .setMode .MODE_FIXED,
          .setThreadSizeThreshhold 0] = some s ∧
      s.curThreadSize_ = 1 ∧ s.maxThreadSize_ = 0 :=
  ⟨_, rfl, rfl, rfl⟩

/-- C3. When the queue holds fewer tasks than the capacity, `submitTask(sp)`
returns a valid `Result` linked to `sp`, appends `sp` at the tail of the queue
(every earlier task keeps its position), and the queue length and the counter
`taskCnt_` both grow by exactly one. -/
theorem submitTask_below_capacity {U : Type} {El : U → Type} (s : ThreadPool Task) (sp : Task)
    (hint : s.taskQueueMaxThreshHold_ ≤ INT_MAX)
    (hroom : (s.taskQueue_.length : Int) < s.taskQueueMaxThreshHold_) :
    (@submitTask Task U El s sp).2.isValid_ = true ∧
    (@submitTask Task U El s sp).2.task_ = sp ∧
    (@submitTask Task U El s sp).1.taskQueue_ = s.taskQueue_ ++ [sp] ∧
    (∀ i, i < s.taskQueue_.length →
      (@submitTask Task U El s sp).1.taskQueue_.get? i = s.taskQueue_.get? i) ∧
    (@submitTask Task U El s sp).1.taskQueue_.length = s.taskQueue_.length + 1 ∧
    (@submitTask Task U El s sp).1.taskCnt_ = s.taskCnt_ + 1 := by
  have hconv : (toSizeT s.taskQueueMaxThreshHold_ : Int) = s.taskQueueMaxThreshHold_ := by
    apply toSizeT_eq
    · omega
    · unfold INT_MAX at hint
      omega
  have hlt : s.taskQueue_.length < toSizeT s.taskQueueMaxThreshHold_ := by omega
  have hq : (@submitTask Task U El s sp).1.taskQueue_ = s.taskQueue_ ++ [sp] := by
    unfold submitTask
    rw [if_pos hlt]
    dsimp only
    split <;> simp [createThread_eq]
  refine ⟨?_, ?_, hq, ?_, ?_, ?_⟩
  · simp [submitTask, hlt, Result.ctor]
  · simp [submitTask, hlt, Result.ctor]
  · intro i hi
    rw [hq]
    simp [List.getElem?_append_left hi]
  · rw [hq]
    simp
  · unfold submitTask
    rw [if_pos hlt]
    dsimp only
    split <;> simp [createThread_eq]

/-- The hypotheses of `submitTask_below_capacity` hold for a new pool, whose
queue is empty and whose capacity is 4. -/
theorem submitTask_below_capacity_witness :
    (@submitTask Nat Unit (fun _ => Unit) (ThreadPool.ctor 0) 7).2.isValid_ = true ∧
    (@submitTask Nat Unit (fun _ => Unit) (ThreadPool.ctor 0) 7).1.taskQueue_ = [7] :=
  have h := @submitTask_below_capacity Nat Unit (fun _ => Unit) (ThreadPool.ctor 0) 7
    (by decide) (by decide)
  ⟨h.1, h.2.2.1⟩

/-- C4. When the queue is still at capacity as the wait of one second ends,
`submitTask(sp)` returns an invalid `Result` and the pool is as before: the
task is not queued, and the queue, `taskCnt_`, `idleThreadSize_`,
`curThreadSize_`, the registry `threads_` and the set of running threads are
unchanged, in either mode. -/
theorem submitTask_at_capacity {U : Type} {El : U → Type} (s : ThreadPool Task) (sp : Task)
    (hcap : 0 ≤ s.taskQueueMaxThreshHold_)
    (hfull : s.taskQueueMaxThreshHold_ ≤ (s.taskQueue_.length : Int)) :
    (@submitTask Task U El s sp).2.isValid_ = false ∧
    (@submitTask Task U El s sp).1 = s ∧
    (@submitTask Task U El s sp).1.taskQueue_ = s.taskQueue_ ∧
    (@submitTask Task U El s sp).1.taskCnt_ = s.taskCnt_ ∧
    (@submitTask Task U El s sp).1.idleThreadSize_ = s.idleThreadSize_ ∧
    (@submitTask Task U El s sp).1.curThreadSize_ = s.curThreadSize_ ∧
    (@submitTask Task U El s sp).1.threads_ = s.threads_ ∧
    (@submitTask Task U El s sp).1.osThreads = s.osThreads := by
  have hle := toSizeT_le s.taskQueueMaxThreshHold_ hcap
  have hnot : ¬ s.taskQueue_.length < toSizeT s.taskQueueMaxThreshHold_ := by omega
  have hs : (@submitTask Task U El s sp).1 = s := by
    unfold submitTask
    rw [if_neg hnot]
  refine ⟨?_, hs, ?_, ?_, ?_, ?_, ?_, ?_⟩
  · unfold submitTask
    rw [if_neg hnot]
    rfl
  all_goals rw [hs]

/-- The hypotheses of `submitTask_at_capacity` hold for a cached-mode pool of
capacity 1 that holds one task. -/
theorem submitTask_at_capacity_witness :
    (@submitTask Nat Unit (fun _ => Unit)
      { (ThreadPool.ctor 0 : ThreadPool Nat) with
        taskQueue_ := [3], taskCnt_ := 1, taskQueueMaxThreshHold_ := 1,
        poolMode_ := .MODE_CACHED } 7).2.isValid_ = false :=
  (@submitTask_at_capacity Nat Unit (fun _ => Unit)
      { (ThreadPool.ctor 0 : ThreadPool Nat) with
        taskQueue_ := [3], taskCnt_ := 1, taskQueueMaxThreshHold_ := 1,
        poolMode_ := .MODE_CACHED } 7 (by decide) (by decide)).1

/-! ## setThreadSizeThreshhold -/

/-- In cached mode `setThreadSizeThreshhold` changes nothing: the assignment to
`maxThreadSize_` is under `if (poolMode_ == PoolMode::MODE_FIXED)`. -/
theorem setThreadSizeThreshhold_cached (s : ThreadPool Task) (threshHold : Int)
    (hmode : s.poolMode_ = .MODE_CACHED) : s.setThreadSizeThreshhold threshHold = s := by
  unfold setThreadSizeThreshhold
  split
  · rfl
  · simp [hmode]

/-- C8 on the code.  A new pool is put in cached mode and
`setThreadSizeThreshhold(1)` is called before `start`: the pool is not
running and in cached mode, and `maxThreadSize_` is still
`THREAD_MAX_THRESHHOLD = 10`, not 1.  After `start(1)` and two submissions the
pool has grown to 2 workers, above the requested maximum of 1.  The same call
on a new pool in fixed mode does store 1. -/
theorem setThreadSizeThreshhold_cached_ignored :
    (((ThreadPool.ctor 0 : ThreadPool Nat).setMode .MODE_CACHED).setThreadSizeThreshhold
      1).maxThreadSize_ = 10 ∧
    ((ThreadPool.ctor 0 : ThreadPool Nat).setMode .MODE_CACHED).poolMode_ = .MODE_CACHED ∧
    ((ThreadPool.ctor 0 : ThreadPool Nat).setMode .MODE_CACHED).isRunning_ = false ∧
    ((ThreadPool.ctor 0 : ThreadPool Nat).run
        [.setMode .MODE_CACHED, .setThreadSizeThreshhold 1, .start 1, .submitTask 1,
          .submitTask 2]).map (fun s => s.curThreadSize_) = some 2 ∧
    ((ThreadPool.ctor 0 : ThreadPool Nat).setThreadSizeThreshhold 1).maxThreadSize_ = 1 := by
  decide

/-! ## Growth in submitTask -/

/-- The pending counter is tested before the wait and not after it.  After
`idleRun`, worker 1 enters the timed wait with `taskCnt_ = 0`; a task is then
submitted; the wait returns `timeout` when the clock reads 15 s and the worker
takes the idle exit although `taskCnt_` is 1. -/
theorem idle_exit_after_late_submit :
    (idlePool.run [.lock 1, .submitTask 9, .wakeTimed 1 .timeout 15000000000]).map
      (fun s => (s.taskCnt_, s.curThreadSize_, s.idleThreadSize_, s.osThreads.length)) =
      some (1, 1, 1, 1) := by
  decide

theorem start_taskQueue (s s1 : ThreadPool Task) (n : Int) (h : s.start n = some s1) :
    s1.taskQueue_ = s.taskQueue_ ∧ s1.taskCnt_ = s.taskCnt_ := by
  unfold ThreadPool.start at h
  split at h
  · simp at h
  · have hl := start_launch_fields _ _ _ _ h
    have hc := start_create_fields (toSizeT n)
      { s with isRunning_ := true, initThreadSize_ := toSizeT n, curThreadSize_ := n }
    simp only at hl hc
    exact ⟨hl.2.2.2.2.2.1.trans hc.2.2.2.2.2.1, hl.2.2.2.2.2.2.1.trans hc.2.2.2.2.2.2.1⟩

theorem heldAfter_runLoopHead (s s1 : ThreadPool Task) (i : Nat) (w : OsThread Task)
    (hget : s.osThreads[i]? = some w) (h : s.runLoopHead i w = some s1) :
    (heldAfter s s1 i).toList ++ s1.taskQueue_ = s.taskQueue_ := by
  rcases runLoopHead_cases s s1 i w h with
    ⟨task, rest, _, hq, rfl⟩ | ⟨_, _, rfl⟩ | ⟨_, _, _, rfl⟩ | ⟨_, _, _, rfl⟩
  · have hlen := length_setAt s.osThreads i { w with pc := Pc.executing task }
    have hi := getElem?_setAt s.osThreads i w { w with pc := Pc.executing task } hget
    simp only [heldAfter, hlen, hi, if_true, hq]
    rfl
  · have hlen := length_dropAt s.osThreads i w hget
    have hne : ¬ (dropAt s.osThreads i).length = s.osThreads.length := by omega
    simp only [heldAfter, hne, if_false]
    rfl
  · have hlen := length_setAt s.osThreads i { w with pc := Pc.timedWait }
    have hi := getElem?_setAt s.osThreads i w { w with pc := Pc.timedWait } hget
    simp only [heldAfter, hlen, hi, if_true]
    rfl
  · have hlen := length_setAt s.osThreads i { w with pc := Pc.untimedWait }
    have hi := getElem?_setAt s.osThreads i w { w with pc := Pc.untimedWait } hget
    simp only [heldAfter, hlen, hi, if_true]
    rfl

/-- What a step takes from the head of the queue and what it adds at the tail. -/
theorem queue_step (s s1 : ThreadPool Task) (op : Op Task) (h : s.step op = some s1) :
    (dequeuedBy s s1 op).toList ++ s1.taskQueue_ =
      s.taskQueue_ ++ (enqueuedBy s op).toList := by
  cases op with
  | setMode mode =>
    simp only [step, Option.some.injEq] at h
    subst h
    unfold ThreadPool.setMode
    split <;> simp [dequeuedBy, enqueuedBy]
  | setTaskQueueMaxThreshHold k =>
    simp only [step, Option.some.injEq] at h
    subst h
    unfold ThreadPool.setTaskQueueMaxThreshHold
    split <;> simp [dequeuedBy, enqueuedBy]
  | setThreadSizeThreshhold k =>
    simp only [step, Option.some.injEq] at h
    subst h
    unfold ThreadPool.setThreadSizeThreshhold
    split
    · simp [dequeuedBy, enqueuedBy]
    · split <;> simp [dequeuedBy, enqueuedBy]
  | start n =>
    simp only [step] at h
    simp [dequeuedBy, enqueuedBy, (start_taskQueue s s1 n h).1]
  | submitTask sp =>
    simp only [step, Option.some.injEq] at h
    subst h
    simp only [dequeuedBy, enqueuedBy, Option.toList, List.nil_append]
    unfold ThreadPool.submitTask
    split
    · dsimp only
      split <;> simp [createThread_eq, Result.ctor]
    · simp [Result.ctor]
  | dtor =>
    simp only [step, Option.some.injEq] at h
    subst h
    simp [dequeuedBy, enqueuedBy, dtor_begin]
  | enter i now =>
    simp only [step] at h
    cases hget : s.osThreads[i]? with
    | none => simp [hget] at h
    | some w =>
      obtain ⟨tid, lt, pc⟩ := w
      cases pc <;> simp only [hget, Option.some.injEq, reduceCtorEq] at h
      subst h
      simp [dequeuedBy, enqueuedBy]
  | lock i =>
    simp only [step] at h
    cases hget : s.osThreads[i]? with
    | none => simp [hget] at h
    | some w =>
      obtain ⟨tid, lt, pc⟩ := w
      cases pc <;> simp only [hget, reduceCtorEq] at h
      simpa [dequeuedBy, enqueuedBy] using heldAfter_runLoopHead s s1 i _ hget h
  | wakeTimed i status now =>
    simp only [step] at h
    cases hget : s.osThreads[i]? with
    | none => simp [hget] at h
    | some w =>
      obtain ⟨tid, lt, pc⟩ := w
      cases pc <;> simp only [hget, reduceCtorEq] at h
      split at h
      · simp only [Option.some.injEq] at h
        subst h
        have hlen := length_dropAt s.osThreads i _ hget
        have hne : ¬ (dropAt s.osThreads i).length = s.osThreads.length := by omega
        simp [dequeuedBy, enqueuedBy, heldAfter, threadFunc_reclaim, hne]
      · simpa [dequeuedBy, enqueuedBy] using heldAfter_runLoopHead s s1 i _ hget h
  | wakeUntimed i =>
    simp only [step] at h
    cases hget : s.osThreads[i]? with
    | none => simp [hget] at h
    | some w =>
      obtain ⟨tid, lt, pc⟩ := w
      cases pc <;> simp only [hget, reduceCtorEq] at h
      simpa [dequeuedBy, enqueuedBy] using heldAfter_runLoopHead s s1 i _ hget h
  | finish i now =>
    simp only [step] at h
    cases hget : s.osThreads[i]? with
    | none => simp [hget] at h
    | some w =>
      obtain ⟨tid, lt, pc⟩ := w
      cases pc <;> simp only [hget, Option.some.injEq, reduceCtorEq] at h
      subst h
      simp [dequeuedBy, enqueuedBy, threadFunc_afterTask]

theorem reachable_runHist {s s1 : ThreadPool Task} {h h1 : History Task}
    (ops : List (Op Task)) (hs : Reachable s) (hrun : runHist s h ops = some (s1, h1)) :
    Reachable s1 := by
  induction ops generalizing s h with
  | nil =>
    simp only [runHist, Option.some.injEq, Prod.mk.injEq] at hrun
    exact hrun.1 ▸ hs
  | cons op ops ih =>
    simp only [runHist] at hrun
    cases hstep : s.step op with
    | none => simp [hstep] at hrun
    | some s2 =>
      rw [hstep] at hrun
      exact ih (ReachableUnder.step op hs trivial hstep) hrun

/-- C11. Along every run from a new pool, the tasks of the successful
`submitTask` calls, in the order of the calls, are the tasks dequeued by the
worker threads, in the order of the dequeue steps, followed by the tasks
still in the queue.  So the sequence of dequeued tasks is a prefix of the
sequence of submitted tasks, the task dequeued in `j`-th place is the task
submitted in `j`-th place, and when `a` was submitted before `b` (places
`i < j`) and `b` has been dequeued, `a` was dequeued in the earlier place
`i`. -/
theorem fifo_order (g : Int) (ops : List (Op Task)) (s : ThreadPool Task) (h : History Task)
    (hrun : runHist (ThreadPool.ctor g) ⟨[], []⟩ ops = some (s, h)) :
    h.submitted = h.dequeued ++ s.taskQueue_ ∧
    h.dequeued <+: h.submitted ∧
    (∀ j, j < h.dequeued.length → h.dequeued[j]? = h.submitted[j]?) ∧
    (∀ i j a b, i < j → h.submitted[i]? = some a → h.submitted[j]? = some b →
      j < h.dequeued.length → h.dequeued[i]? = some a ∧ h.dequeued[j]? = some b) := by
  have key : ∀ (ops : List (Op Task)) (s0 : ThreadPool Task) (h0 : History Task),
      h0.submitted = h0.dequeued ++ s0.taskQueue_ → runHist s0 h0 ops = some (s, h) →
      h.submitted = h.dequeued ++ s.taskQueue_ := by
    intro ops
    induction ops with
    | nil =>
      intro s0 h0 hinv hr
      simp only [runHist, Option.some.injEq, Prod.mk.injEq] at hr
      obtain ⟨rfl, rfl⟩ := hr
      exact hinv
    | cons op ops ih =>
      intro s0 h0 hinv hr
      simp only [runHist] at hr
      cases hstep : s0.step op with
      | none => simp [hstep] at hr
      | some s2 =>
        rw [hstep] at hr
        refine ih s2 _ ?_ hr
        have hq := queue_step s0 s2 op hstep
        simp only [hinv, List.append_assoc, hq]
  have hsplit := key ops (ThreadPool.ctor g) ⟨[], []⟩ rfl hrun
  have hpre : ∀ j, j < h.dequeued.length → h.dequeued[j]? = h.submitted[j]? := by
    intro j hj
    rw [hsplit, List.getElem?_append_left hj]
  refine ⟨hsplit, ⟨s.taskQueue_, hsplit.symm⟩, hpre, ?_⟩
  intro i j a b hij ha hb hj
  constructor
  · rw [hpre i (by omega)]
    exact ha
  · rw [hpre j hj]
    exact hb

/-- After `fifoRun` the tasks 5, 6, 7 have been submitted in that order and the
two workers have dequeued 5 and 6 in that order. -/
theorem fifo_order_witness :
    (ThreadPool.ctor 0).runHist ⟨[], []⟩ fifoRun = some fifoOutcome ∧
    fifoOutcome.2.submitted = [5, 6, 7] ∧ fifoOutcome.2.dequeued = [5, 6] ∧
    fifoOutcome.2.dequeued <+: fifoOutcome.2.submitted :=
  ⟨rfl, by decide, by decide, (fifo_order 0 fifoRun fifoOutcome.1 fifoOutcome.2 rfl).2.1⟩

/-! ## The counter and the queue -/

/-- C16. In every reachable state `taskCnt_` is the length of `taskQueue_`.
Hence when a thread leaves the wait loop because `taskCnt_ != 0`, the queue
has a first task: `front()` and `pop()` act on a non-empty queue, the
decrement takes `taskCnt_` from a positive value to the length of the rest of
the queue, and the critical section of `threadFunc` is defined for every
thread. -/
theorem dequeue_safe {s : ThreadPool Task} (h : Reachable s) :
    s.taskCnt_ = s.taskQueue_.length ∧
    (threadFunc_loopHead s = .dequeue →
      ∃ task s1, threadFunc_dequeue s = some (task, s1) ∧
        s.taskQueue_ = task :: s1.taskQueue_ ∧
        s1.taskCnt_ + 1 = s.taskCnt_ ∧ s1.taskCnt_ = s1.taskQueue_.length) ∧
    (∀ i w, (s.runLoopHead i w).isSome = true) := by
  have hcnt : s.taskCnt_ = s.taskQueue_.length := by
    induction h with
    | ctor g => rfl
    | @step s s1 op _ _ hs hP =>
      have he := step_effect s s1 op hs
      cases he <;> simp_all
  have hdeq : threadFunc_loopHead s = .dequeue →
      ∃ task s1, threadFunc_dequeue s = some (task, s1) ∧
        s.taskQueue_ = task :: s1.taskQueue_ ∧
        s1.taskCnt_ + 1 = s.taskCnt_ ∧ s1.taskCnt_ = s1.taskQueue_.length := by
    intro hhead
    have hne : s.taskCnt_ ≠ 0 := by
      intro h0
      unfold threadFunc_loopHead at hhead
      rw [if_neg (by simp [h0])] at hhead
      split at hhead
      · simp at hhead
      · split at hhead <;> simp at hhead
    cases hq : s.taskQueue_ with
    | nil =>
      rw [hq] at hcnt
      exact absurd hcnt hne
    | cons task rest =>
      rw [hq] at hcnt
      simp only [List.length_cons] at hcnt
      refine ⟨task, { s with
          idleThreadSize_ := s.idleThreadSize_ - 1
          taskQueue_ := rest
          taskCnt_ := s.taskCnt_ - 1 }, by simp only [threadFunc_dequeue, hq], rfl, ?_, ?_⟩
      · show s.taskCnt_ - 1 + 1 = s.taskCnt_
        omega
      · show s.taskCnt_ - 1 = rest.length
        omega
  refine ⟨hcnt, hdeq, ?_⟩
  intro i w
  unfold runLoopHead
  cases hhead : threadFunc_loopHead s with
  | dequeue =>
    obtain ⟨task, s1, hd, _⟩ := hdeq hhead
    simp [hd]
  | exitShutdown => simp
  | waitTimed => simp
  | waitUntimed => simp

/-- The hypothesis of `dequeue_safe` holds after `fifoRun`. -/
theorem dequeue_safe_witness :
    fifoOutcome.1.taskCnt_ = 1 ∧ fifoOutcome.1.taskQueue_ = [7] ∧
    fifoOutcome.1.taskCnt_ = fifoOutcome.1.taskQueue_.length :=
  ⟨by decide, by decide, (dequeue_safe (reachable_runHist fifoRun (ReachableUnder.ctor 0)
      (rfl : (ThreadPool.ctor 0).runHist ⟨[], []⟩ fifoRun = some (fifoOutcome.1, fifoOutcome.2)))).1⟩

/-! ## Configuration of a running pool -/

/-- C15. On a pool that is running, `setMode(mode)`,
`setTaskQueueMaxThreshHold(k)` and `setThreadSizeThreshhold(k)` each return
the pool unchanged, for every `mode` and `k`: the mode, the capacity, the
maximum and all counters are as before. -/
theorem config_frozen (s : ThreadPool Task) (mode : PoolMode) (k : Int)
    (hrun : s.isRunning_ = true) :
    s.setMode mode = s ∧ s.setTaskQueueMaxThreshHold k = s ∧ s.setThreadSizeThreshhold k = s := by
  refine ⟨?_, ?_, ?_⟩
  · simp [ThreadPool.setMode, checkRunningState, hrun]
  · simp [ThreadPool.setTaskQueueMaxThreshHold, checkRunningState, hrun]
  · simp [ThreadPool.setThreadSizeThreshhold, checkRunningState, hrun]

/-- The hypothesis of `config_frozen` holds for a pool after `start(2)`. -/
theorem config_frozen_witness :
    startedPool.isRunning_ = true ∧
    startedPool.setMode .MODE_CACHED = startedPool ∧
    startedPool.setTaskQueueMaxThreshHold 100 = startedPool ∧
    startedPool.setThreadSizeThreshhold 100 = startedPool :=
  ⟨by decide, config_frozen startedPool .MODE_CACHED 100 (by decide)⟩

/-! ## The destructor -/

theorem dtor_done_iff (s : ThreadPool Task) : s.dtor_done = true ↔ s.threads_ = [] := by
  simp [dtor_done]

/-- The shutdown exit of `threadFunc` (lines 112-115) erases the thread from
the registry and leaves `curThreadSize_` and `idleThreadSize_` as they are;
the idle exit (lines 136-138) takes one from each. -/
theorem threadFunc_exit_counters (s : ThreadPool Task) (threadId : Int) :
    (threadFunc_exitShutdown s threadId).curThreadSize_ = s.curThreadSize_ ∧
    (threadFunc_exitShutdown s threadId).idleThreadSize_ = s.idleThreadSize_ ∧
    (threadFunc_reclaim s threadId).curThreadSize_ = s.curThreadSize_ - 1 ∧
    (threadFunc_reclaim s threadId).idleThreadSize_ = s.idleThreadSize_ - 1 :=
  ⟨rfl, rfl, rfl, rfl⟩

/-- C12 on the code.  A new pool is started with one worker, the worker blocks
in `wait`, the destructor sets `isRunning_ = false` and wakes it, and the
worker takes the shutdown exit.  The predicate the destructor waits for
holds, so the destructor returns: the registry is empty and no thread is
left, but `curThreadSize_` (and `idleThreadSize_`) is still 1. -/
theorem dtor_keeps_curThreadSize :
    ((ThreadPool.ctor 0 : ThreadPool Nat).run
        [.start 1, .enter 0 0, .lock 0, .dtor, .wakeUntimed 0]).map
      (fun s => (s.dtor_done, s.threads_.length, s.osThreads.length, s.curThreadSize_,
        s.idleThreadSize_)) = some (true, 0, 0, 1, 1) := by
  decide

/-- C13 as stated fails.  After `stopRun` shutdown has been requested
(`isRunning_` is false) and task 7 sits in the queue.  The worker then wakes
from `wait`: it does not exit but dequeues task 7 and stays registered.  It
executes the task, and only at its next pass, with the queue empty, takes the
shutdown exit, after which the destructor can return. -/
theorem shutdown_counterexample :
    ((ThreadPool.ctor 0 : ThreadPool Nat).run
        [.start 1, .enter 0 0, .lock 0, .submitTask 7, .dtor]).map
      (fun s => (s.isRunning_, s.taskQueue_, s.threads_.length)) = some (false, [7], 1) ∧
    ((ThreadPool.ctor 0 : ThreadPool Nat).runHist ⟨[], []⟩
        [.start 1, .enter 0 0, .lock 0, .submitTask 7, .dtor, .wakeUntimed 0]).map
      (fun p => (p.1.isRunning_, p.1.taskQueue_, p.2.dequeued, p.1.threads_.length)) =
      some (false, [], [7], 1) ∧
    ((ThreadPool.ctor 0 : ThreadPool Nat).runHist ⟨[], []⟩
        [.start 1, .enter 0 0, .lock 0, .submitTask 7, .dtor, .wakeUntimed 0, .finish 0 1,
          .lock 0]).map
      (fun p => (p.1.dtor_done, p.1.taskQueue_, p.2.dequeued)) = some (true, [], [7]) := by
  decide

/-- C13, amended.  In a reachable state in which shutdown has been requested
(`isRunning_` is false), a thread at the head of the wait loop takes the
shutdown exit exactly when `taskCnt_ == 0`, and dequeues exactly when
`taskCnt_ != 0`: the flag is not looked at while tasks are pending.  At the
shutdown exit the queue is empty; the thread erases itself from the registry,
returns, and leaves the queue and its counter as they are.  With tasks
pending the thread takes the first task of the queue, holds it for execution
and remains registered. -/
theorem shutdown_exit {s : ThreadPool Task} (hreach : Reachable s)
    (hstop : s.isRunning_ = false) (threadId : Int) :
    (threadFunc_loopHead s = .exitShutdown ↔ s.taskCnt_ = 0) ∧
    (threadFunc_loopHead s = .dequeue ↔ s.taskCnt_ ≠ 0) ∧
    (s.taskCnt_ = 0 →
      s.taskQueue_ = [] ∧
      (threadFunc_exitShutdown s threadId).threads_ = s.threads_.erase threadId ∧
      (threadFunc_exitShutdown s threadId).threads_.find threadId = none ∧
      (threadFunc_exitShutdown s threadId).taskQueue_ = s.taskQueue_ ∧
      (threadFunc_exitShutdown s threadId).taskCnt_ = s.taskCnt_) ∧
    (s.taskCnt_ ≠ 0 →
      ∃ task rest, s.taskQueue_ = task :: rest ∧
        ∃ s1, threadFunc_dequeue s = some (task, s1) ∧ s1.taskQueue_ = rest ∧
          s1.threads_ = s.threads_) ∧
    (∀ (i : Nat) (w : OsThread Task), s.taskCnt_ = 0 →
      s.runLoopHead i w = some
        { s with
          threads_ := s.threads_.erase w.threadId
          osThreads := dropAt s.osThreads i }) ∧
    (∀ (i : Nat) (w : OsThread Task), s.taskCnt_ ≠ 0 →
      ∃ task rest, s.taskQueue_ = task :: rest ∧
        s.runLoopHead i w = some
          { s with
            idleThreadSize_ := s.idleThreadSize_ - 1
            taskQueue_ := rest
            taskCnt_ := s.taskCnt_ - 1
            osThreads := setAt s.osThreads i { w with pc := .executing task } }) := by
  have hcnt := taskCnt_eq_length hreach
  have hhead : threadFunc_loopHead s =
      if s.taskCnt_ ≠ 0 then LoopHead.dequeue else LoopHead.exitShutdown := by
    unfold threadFunc_loopHead
    simp [hstop]
  refine ⟨?_, ?_, ?_, ?_, ?_, ?_⟩
  · rw [hhead]
    by_cases h0 : s.taskCnt_ = 0 <;> simp [h0]
  · rw [hhead]
    by_cases h0 : s.taskCnt_ = 0 <;> simp [h0]
  · intro h0
    refine ⟨?_, rfl, ThreadMap.find_erase _ _, rfl, rfl⟩
    rw [h0] at hcnt
    exact List.length_eq_zero.mp hcnt.symm
  · intro hne
    cases hq : s.taskQueue_ with
    | nil =>
      rw [hq] at hcnt
      exact absurd hcnt hne
    | cons task rest =>
      exact ⟨task, rest, rfl, { s with
          idleThreadSize_ := s.idleThreadSize_ - 1
          taskQueue_ := rest
          taskCnt_ := s.taskCnt_ - 1 }, by simp only [threadFunc_dequeue, hq], rfl, rfl⟩
  · intro i w h0
    have hh : threadFunc_loopHead s = .exitShutdown := by
      rw [hhead, if_neg (by simp [h0])]
    unfold runLoopHead
    rw [hh]
    rfl
  · intro i w hne
    have hh : threadFunc_loopHead s = .dequeue := by
      rw [hhead, if_pos hne]
    cases hq : s.taskQueue_ with
    | nil =>
      rw [hq] at hcnt
      exact absurd hcnt hne
    | cons task rest =>
      refine ⟨task, rest, rfl, ?_⟩
      unfold runLoopHead
      rw [hh]
      simp only [threadFunc_dequeue, hq]

/-- The hypotheses of `shutdown_exit` hold after `stopRun`: the pool is
stopped, task 7 is pending, and the worker that wakes dequeues it and stays
registered. -/
theorem shutdown_exit_witness :
    (ThreadPool.ctor 0).run stopRun = some stoppedPool ∧
    stoppedPool.isRunning_ = false ∧ stoppedPool.taskQueue_ = [7] ∧
    threadFunc_loopHead stoppedPool = .dequeue ∧
    (stoppedPool.run [.wakeUntimed 0]).map (fun s => (s.taskQueue_, s.threads_.length)) =
      some ([], 1) :=
  ⟨rfl, by decide, by decide,
    (shutdown_exit (reachable_run stopRun (ReachableUnder.ctor 0) rfl) (by decide) 0).2.1.mpr
      (by decide),
    by decide⟩

/-! ## start -/

theorem start_create_eq (k : Nat) (s : ThreadPool Task) (hids : IdsBelowNext s) :
    start_create k s = { s with
      threads_ := s.threads_ ++ idRange s.generateId_ k
      generateId_ := s.generateId_ + k } := by
  induction k generalizing s with
  | zero => simp [start_create, idRange]
  | succ k ih =>
    have hfresh : s.threads_.find s.generateId_ = none := by
      apply ThreadMap.find_eq_none
      intro e he
      have := hids e he
      omega
    have h := ih s.emplaceNewThread (emplaceNewThread_ids s hids)
    rw [start_create, h]
    simp only [emplaceNewThread, ThreadMap.emplace, hfresh, idRange, List.append_assoc,
      List.singleton_append, ThreadPool.mk.injEq, true_and, and_true]
    push_cast
    omega

theorem start_launch_hits (k : Nat) (i : Int) (s : ThreadPool Task)
    (hfind : ∀ j : Nat, j < k → s.threads_.find (i + j) = some ⟨i + j⟩) :
    start_launch k i s = some { s with
      osThreads := s.osThreads ++ spawnedRange i k
      idleThreadSize_ := s.idleThreadSize_ + k } := by
  induction k generalizing i s with
  | zero => simp [start_launch, spawnedRange]
  | succ k ih =>
    have h0 : s.threads_.find i = some ⟨i⟩ := by
      have := hfind 0 (by omega)
      simpa using this
    have hrest : ∀ j : Nat, j < k → s.threads_.find (i + 1 + j) = some ⟨i + 1 + j⟩ := by
      intro j hj
      have := hfind (j + 1) (by omega)
      have e : i + ((j + 1 : Nat) : Int) = i + 1 + j := by push_cast; omega
      rw [e] at this
      exact this
    have hs := ih (i + 1)
      { s with
        idleThreadSize_ := s.idleThreadSize_ + 1
        osThreads := s.osThreads ++ [⟨i, 0, .spawned⟩] } hrest
    simp only [start_launch, startThreadAt, h0]
    rw [hs]
    simp only [spawnedRange, List.append_assoc, List.singleton_append, Option.some.injEq,
      ThreadPool.mk.injEq, true_and, and_true]
    push_cast
    omega

theorem start_launch_miss (k : Nat) (i : Int) (s : ThreadPool Task)
    (hfind : s.threads_.find i = none) : start_launch (k + 1) i s = none := by
  simp [start_launch, startThreadAt, hfind]

/-- `start(k)` on a new pool in a process whose id counter is `g`: with
`g = 0` the `k` threads with the ids `0, ..., k - 1` are registered and
started; with `g > 0` the ids `g, ..., g + k - 1` are registered, and the
lookup `threads_[0]` of the second loop finds no entry. -/
theorem start_new_pool (g : Int) (k : Nat) (hk : 0 < k) (hmax : (k : Int) ≤ INT_MAX) :
    (ThreadPool.ctor 0 : ThreadPool Task).start k = some
      { (ThreadPool.ctor 0 : ThreadPool Task) with
        isRunning_ := true
        initThreadSize_ := k
        curThreadSize_ := k
        threads_ := idRange 0 k
        generateId_ := k
        osThreads := spawnedRange 0 k
        idleThreadSize_ := k } ∧
    (0 < g → (ThreadPool.ctor g : ThreadPool Task).start k = none) := by
  have hconv : toSizeT k = k := by
    have := toSizeT_eq k (by omega) (by unfold INT_MAX at hmax; omega)
    omega
  have hcreate : ∀ g0 : Int, start_create k
      ({ (ThreadPool.ctor g0 : ThreadPool Task) with
        isRunning_ := true, initThreadSize_ := k, curThreadSize_ := k }) =
      { (ThreadPool.ctor g0 : ThreadPool Task) with
        isRunning_ := true, initThreadSize_ := k, curThreadSize_ := k,
        threads_ := idRange g0 k, generateId_ := g0 + k } := by
    intro g0
    rw [start_create_eq _ _ (by intro e he; simp [ThreadPool.ctor] at he)]
    simp [ThreadPool.ctor]
  constructor
  · unfold ThreadPool.start
    rw [if_neg (by omega)]
    simp only [hconv, hcreate]
    rw [start_launch_hits]
    · simp [ThreadPool.ctor]
    · intro j hj
      show ThreadMap.find (idRange 0 k) (0 + (j : Int)) = _
      rw [find_idRange, if_pos (by omega)]
  · intro hpos
    unfold ThreadPool.start
    rw [if_neg (by omega)]
    simp only [hconv, hcreate]
    obtain ⟨m, rfl⟩ : ∃ m, k = m + 1 := ⟨k - 1, by omega⟩
    apply start_launch_miss
    show ThreadMap.find (idRange g (m + 1)) 0 = none
    rw [find_idRange, if_neg (by omega)]

/-- C14 on the code.  In a process whose id counter is 1 (one `Thread` has been
created before, by another pool), `start(1)` on a new pool has undefined
behaviour: the first loop registers the new thread under id 1, and the second
loop looks up `threads_[0]`, which is not registered.  In a process whose
counter is 0 the same call registers id 0, starts it, and ends with
`curThreadSize_ = idleThreadSize_ = 1`. -/
theorem start_second_pool :
    ((ThreadPool.ctor 1 : ThreadPool Nat).start 1).isSome = false ∧
    (start_create 1 ({ (ThreadPool.ctor 1 : ThreadPool Nat) with
        isRunning_ := true, initThreadSize_ := 1, curThreadSize_ := 1 })).threads_ =
      [(1, ⟨1⟩)] ∧
    ((ThreadPool.ctor 0 : ThreadPool Nat).start 1).map
      (fun s => (s.threads_, s.curThreadSize_, s.idleThreadSize_, s.osThreads.length)) =
      some ([(0, ⟨0⟩)], 1, 1, 1) := by
  decide

end ThreadPool

end TPool
